import Mathlib

/-!
Verification development for the metro repository (enzet/metro).

This file gives a shallow embedding, in Lean, of the parts of the code that
the specification talks about:

  * metro/core/data.py       -- identifier computation and the escape function;
  * metro/core/station.py    -- stations, connections, the terminus rule;
  * metro/harvest/wikidata.py -- the Wikidata item views and the city crawler.

Modelling conventions, used consistently below:

  * Python dictionaries are association lists (List (key, value)); assignment
    updates the first binding in place or appends a new one, matching the
    insertion-order semantics of Python dicts.
  * Python sets of ids are duplicate-free lists; an element is appended when
    absent.  Only membership and emptiness of such sets are ever observed by
    the claims, so iteration order is immaterial.
  * Fallible Python code is modelled with Except PyErr; a raised KeyError,
    TypeError, IndexError or StopIteration is an error value.
  * Python str.lower is modelled on the alphabets the source manipulates
    (ASCII, Latin-1 letters, Cyrillic); characters outside those ranges are
    kept, which is the behaviour the source relies on.
  * Regular-expression matching (re.match in the source) is an abstract
    boolean parameter, as are the regex-table driven helper functions
    extract_station_name and extract_line_name: the claims treat them as
    opaque string transformers.
  * Python object identity (Line and Station objects compared with ==, which
    falls back to identity for these classes) is modelled with arenas: objects
    live in a list and are referenced by their index.
  * Station attributes that no claim observes and that the crawler only copies
    (status, open time, geo position, altitude) are gathered into an abstract
    attribute type sigma computed by an abstract fallible function; the graph
    observations proved below never look at them.
-/

namespace MetroSpec

/-- Python exception kinds that the modelled code can raise. -/
inductive PyErr
  | keyError
  | typeError
  | indexError
  | stopIteration
  deriving DecidableEq

instance {α : Type} [DecidableEq α] : DecidableEq (Except PyErr α) := fun a b =>
  match a, b with
  | .ok x, .ok y => if h : x = y then isTrue (by rw [h]) else isFalse (by simp [h])
  | .error x, .error y => if h : x = y then isTrue (by rw [h]) else isFalse (by simp [h])
  | .ok _, .error _ => isFalse (by simp)
  | .error _, .ok _ => isFalse (by simp)

/-! ## Association lists and set-like lists -/

/-- Lookup in a Python dict modelled as an association list. -/
def alookup {κ α : Type} [DecidableEq κ] (l : List (κ × α)) (k : κ) : Option α :=
  (l.find? (fun p => p.1 = k)).map (fun p => p.2)

/-- Python dict assignment: update the first binding in place, else append. -/
def ainsert {κ α : Type} [DecidableEq κ] (l : List (κ × α)) (k : κ) (v : α) :
    List (κ × α) :=
  match l with
  | [] => [(k, v)]
  | p :: rest => if p.1 = k then (k, v) :: rest else p :: ainsert rest k v

/-- Python set insertion: append the element when it is absent. -/
def setInsert {α : Type} [DecidableEq α] (l : List α) (a : α) : List α :=
  if a ∈ l then l else l ++ [a]

/-! ## Python string order (used by sorted(names.keys())) -/

/-- Python character comparison by code point. -/
def charLtB (a b : Char) : Bool := Nat.blt a.toNat b.toNat

/-- Lexicographic comparison of character lists, as Python compares strings. -/
def strLtB : List Char → List Char → Bool
  | [], [] => false
  | [], _ :: _ => true
  | _ :: _, [] => false
  | a :: as, b :: bs => if a = b then strLtB as bs else charLtB a b

/-- Python string less-than. -/
def pyStrLt (a b : String) : Bool := strLtB a.toList b.toList

/-- Insertion into a sorted list, keeping equal keys stable. -/
def insertSorted (a : String) : List String → List String
  | [] => [a]
  | b :: rest => if pyStrLt a b then a :: b :: rest else b :: insertSorted a rest

/-- The Python builtin sorted, on lists of strings (ascending, stable). -/
def pySorted : List String → List String
  | [] => []
  | a :: rest => insertSorted a (pySorted rest)

/-! ## Python str.lower

The tables pair every upper-case character of the alphabets handled by the
source (ASCII, Cyrillic, Latin-1 letters) with its lower-case form. -/

/-- Upper-case characters recognised by the modelled str.lower. -/
def upperChars : List Char :=
  "ABCDEFGHIJKLMNOPQRSTUVWXYZЁАБВГДЕЖЗИЙКЛМНОПРСТУФХЦЧШЩЪЫЬЭЮЯÀÁÂÃÄÅÆÇÈÉÊËÌÍÎÏÐÑÒÓÔÕÖØÙÚÛÜÝÞ".toList

/-- Lower-case forms matching upperChars position by position. -/
def lowerChars : List Char :=
  "abcdefghijklmnopqrstuvwxyzёабвгдежзийклмнопрстуфхцчшщъыьэюяàáâãäåæçèéêëìíîïðñòóôõöøùúûüýþ".toList

/-- Pairs of upper-case and lower-case characters. -/
def lowerPairs : List (Char × Char) := upperChars.zip lowerChars

/-- Python str.lower on a single character (see file header). -/
def pyLowerChar (c : Char) : Char :=
  match lowerPairs.find? (fun p => p.1 = c) with
  | some p => p.2
  | none => c

/-! ## data.py: escape (lines 293-361) -/

/-- The punctuation, space and separator characters of escape, verbatim from
the membership test on line 298 of data.py. -/
def specialChars : List Char := " :-+=\\/-–—()'\"«»ʻ,.*!@#$%^º’".toList

/-- Cyrillic source characters, ru_to_en[0] in data.py. -/
def ruFrom : List Char := "абвгдеёжзийклмнопрстуфхцчшщъыьэюя".toList

/-- Transliterations, ru_to_en[1] in data.py, position by position. -/
def ruTo : List String :=
  ["a", "b", "v", "g", "d", "ye", "yo", "zh", "z", "i", "y", "k", "l", "m",
   "n", "o", "p", "r", "s", "t", "u", "f", "kh", "ts", "ch", "sh", "sch", "",
   "y", "", "e", "yu", "ya"]

/-- Cyrillic transliteration table. -/
def ruPairs : List (Char × String) := ruFrom.zip ruTo

/-- The elif chain of escape (lines 307-346 of data.py): each row is one
branch, carrying the membership string and the replacement. -/
def accentRows : List (String × String) :=
  [("№", "n"), ("&", "and"), ("àáâäãåā", "a"), ("æ", "ae"), ("çćčə", "c"),
   ("èéêëēėęě", "e"), ("ğ", "g"), ("ĥ", "h"), ("îïíīįìıii̇і", "i"),
   ("ĵ", "j"), ("ł", "l"), ("ñńň", "n"), ("õōøôöòó", "o"), ("œ", "oe"),
   ("ß", "ss"), ("ř", "r"), ("śšş", "s"), ("ûüùúūůŭ", "u"), ("ÿýў", "y"),
   ("žźż", "z")]

/-- What a single non-special character contributes to the escaped string:
the Cyrillic table first, then the accent chain, else the character itself. -/
def translit (c : Char) : List Char :=
  match ruPairs.find? (fun p => p.1 = c) with
  | some p => p.2.toList
  | none =>
    match accentRows.find? (fun p => c ∈ p.1.toList) with
    | some p => p.2.toList
    | none => [c]

/-- The character loop of escape (lines 296-348): special characters collapse
to a single underscore, others are transliterated.  The boolean is the
special flag of the source. -/
def buildEscaped : List Char → Bool → List Char
  | [], _ => []
  | c :: rest, special =>
    if c ∈ specialChars then
      (if special then [] else ['_']) ++ buildEscaped rest true
    else
      translit c ++ buildEscaped rest false

/-- The loop `while escaped[0] == "_"` (lines 350-351): indexing an empty
string raises IndexError, modelled as none. -/
def stripLeading : List Char → Option (List Char)
  | [] => none
  | c :: rest => if c = '_' then stripLeading rest else some (c :: rest)

/-- The loop `while escaped[-1] == "_"` (lines 352-353), via reversal. -/
def stripTrailing (l : List Char) : Option (List Char) :=
  (stripLeading l.reverse).map List.reverse

/-- Does the list contain two adjacent underscores (the test `"__" in escaped`)? -/
def containsDD : List Char → Bool
  | [] => false
  | [_] => false
  | c :: d :: rest =>
    if c = '_' ∧ d = '_' then true else containsDD (d :: rest)

/-- One pass of Python str.replace("__", "_"): replace non-overlapping
occurrences left to right. -/
def replaceDD : List Char → List Char
  | [] => []
  | [c] => [c]
  | c :: d :: rest =>
    if c = '_' ∧ d = '_' then '_' :: replaceDD rest
    else c :: replaceDD (d :: rest)

theorem replaceDD_length_le : ∀ l : List Char, (replaceDD l).length ≤ l.length
  | [] => by simp [replaceDD]
  | [c] => by simp [replaceDD]
  | c :: d :: rest => by
    by_cases hcd : c = '_' ∧ d = '_'
    · have := replaceDD_length_le rest
      simp only [replaceDD, if_pos hcd, List.length_cons]
      omega
    · have := replaceDD_length_le (d :: rest)
      simp only [replaceDD, if_neg hcd, List.length_cons] at this ⊢
      omega

theorem replaceDD_length_lt : ∀ l : List Char, containsDD l = true →
    (replaceDD l).length < l.length
  | [], h => by simp [containsDD] at h
  | [c], h => by simp [containsDD] at h
  | c :: d :: rest, h => by
    by_cases hcd : c = '_' ∧ d = '_'
    · have := replaceDD_length_le rest
      simp only [replaceDD, if_pos hcd, List.length_cons]
      omega
    · simp only [containsDD, if_neg hcd] at h
      have := replaceDD_length_lt (d :: rest) h
      simp only [replaceDD, if_neg hcd, List.length_cons] at this ⊢
      omega

/-- Fuelled body of the replace loop; each iteration strictly shrinks the
list (replaceDD_length_lt), so any fuel of at least the length completes the
loop. -/
def collapseGo : Nat → List Char → List Char
  | 0, l => l
  | n + 1, l => if containsDD l = true then collapseGo n (replaceDD l) else l

/-- The loop `while "__" in escaped: escaped = escaped.replace("__", "_")`
(lines 354-355). -/
def collapse (l : List Char) : List Char := collapseGo l.length l

/-- The escape function of data.py (lines 293-361): lower the text, run the
character loop, strip leading and trailing underscores (each can raise
IndexError), collapse double underscores.  The final warning loop only logs,
so it is not modelled. -/
def escape (text : String) : Option String :=
  match stripLeading (buildEscaped (text.toList.map pyLowerChar) false) with
  | none => none
  | some l1 =>
    match stripTrailing l1 with
    | none => none
    | some l2 => some (String.mk (collapse l2))

/-! ## data.py: identifier computation (lines 71-84 and 130-151) -/

/-- Result of a call to escape lifted to the exception monad: a value is
returned, a raised IndexError propagates. -/
def exceptOfEscape (o : Option String) : Except PyErr (Option String) :=
  match o with
  | some s => .ok (some s)
  | none => .error .indexError

/-- The loop body shared by compute_short_station_id and compute_line_id:
walk the candidate languages and return the first with a name. -/
def selectName (names : List (String × String)) : List String → Option (String × String)
  | [] => none
  | lang :: rest =>
    match alookup names lang with
    | some nm => some (lang, nm)
    | none => selectName names rest

/-- The candidate-language list: English, then the local languages, then all
name languages sorted alphabetically. -/
def priorityLanguages (names : List (String × String)) (localLanguages : List String) :
    List String :=
  "en" :: (localLanguages ++ pySorted (names.map Prod.fst))

/-- compute_short_station_id (data.py lines 71-84).  The helper
extract_station_name is regex-table driven and passed as an abstract
function.  Returning None is ok none; a raised IndexError from escape is an
error. -/
def compute_short_station_id (extract : String → String → String)
    (names : List (String × String)) (localLanguages : List String) :
    Except PyErr (Option String) :=
  if names = [] then .ok none
  else
    match selectName names (priorityLanguages names localLanguages) with
    | some (lang, nm) => exceptOfEscape (escape (extract nm lang))
    | none => .ok none

/-- compute_line_id (data.py lines 130-151).  local_languages defaults to the
empty list when None; falling off the loop returns the empty string. -/
def compute_line_id (extract : String → String → String)
    (names : List (String × String)) (localLanguages : Option (List String)) :
    Except PyErr (Option String) :=
  if names = [] then .ok none
  else
    match selectName names (priorityLanguages names (localLanguages.getD [])) with
    | some (lang, nm) => exceptOfEscape (escape (extract nm lang))
    | none => .ok (some "")

/-! ## Lemmas about escape -/

/-- The ASCII lower-case letters; every transliteration output is built from
them. -/
def asciiLower : List Char := "abcdefghijklmnopqrstuvwxyz".toList

/-- A character that escape maps to itself and that survives a second pass. -/
def stableChar (c : Char) : Prop :=
  pyLowerChar c = c ∧ c ∉ specialChars ∧ translit c = [c]

instance (c : Char) : Decidable (stableChar c) := by
  unfold stableChar; infer_instance

theorem ruTo_ascii : ∀ p ∈ ruPairs, ∀ d ∈ p.2.toList, d ∈ asciiLower := by decide

theorem accent_ascii : ∀ p ∈ accentRows, ∀ d ∈ p.2.toList, d ∈ asciiLower := by
  decide

theorem ascii_stable : ∀ d ∈ asciiLower, stableChar d := by decide

theorem underscore_stable : stableChar '_' := by decide

theorem lower_not_upper : ∀ p ∈ lowerPairs, p.2 ∉ lowerPairs.map Prod.fst := by
  decide

theorem pyLower_idem (c : Char) : pyLowerChar (pyLowerChar c) = pyLowerChar c := by
  cases hf : lowerPairs.find? (fun p => p.1 = c) with
  | none =>
    have h1 : pyLowerChar c = c := by unfold pyLowerChar; rw [hf]
    rw [h1]
    exact h1
  | some p =>
    have h1 : pyLowerChar c = p.2 := by unfold pyLowerChar; rw [hf]
    rw [h1]
    have hp : p ∈ lowerPairs := List.mem_of_find?_eq_some hf
    have h2 : p.2 ∉ lowerPairs.map Prod.fst := lower_not_upper p hp
    have h3 : lowerPairs.find? (fun q => q.1 = p.2) = none := by
      rw [List.find?_eq_none]
      intro q hq hqe
      exact h2 (List.mem_map.mpr ⟨q, hq, of_decide_eq_true hqe⟩)
    unfold pyLowerChar
    rw [h3]

theorem translit_chars (c d : Char) (hd : d ∈ translit c) :
    d ∈ asciiLower ∨ (translit c = [c] ∧ d = c) := by
  revert hd
  unfold translit
  cases hr : ruPairs.find? (fun p => p.1 = c) with
  | some p =>
    intro hd
    exact Or.inl (ruTo_ascii p (List.mem_of_find?_eq_some hr) d hd)
  | none =>
    cases ha : accentRows.find? (fun p => c ∈ p.1.toList) with
    | some p =>
      intro hd
      exact Or.inl (accent_ascii p (List.mem_of_find?_eq_some ha) d hd)
    | none =>
      intro hd
      exact Or.inr ⟨rfl, List.mem_singleton.mp hd⟩

theorem buildEscaped_chars : ∀ (l : List Char) (b : Bool) (d : Char),
    d ∈ buildEscaped l b →
    d = '_' ∨ ∃ c, c ∈ l ∧ c ∉ specialChars ∧ d ∈ translit c
  | [], _, d => by simp [buildEscaped]
  | c :: rest, b, d => by
    simp only [buildEscaped]
    by_cases hc : c ∈ specialChars
    · rw [if_pos hc]
      intro hd
      rcases List.mem_append.mp hd with h | h
      · left
        cases b with
        | true => simp at h
        | false => simpa using h
      · rcases buildEscaped_chars rest true d h with h | ⟨c', hc', hs', hd'⟩
        · exact Or.inl h
        · exact Or.inr ⟨c', List.mem_cons_of_mem c hc', hs', hd'⟩
    · rw [if_neg hc]
      intro hd
      rcases List.mem_append.mp hd with h | h
      · exact Or.inr ⟨c, List.mem_cons_self c rest, hc, h⟩
      · rcases buildEscaped_chars rest false d h with h | ⟨c', hc', hs', hd'⟩
        · exact Or.inl h
        · exact Or.inr ⟨c', List.mem_cons_of_mem c hc', hs', hd'⟩

theorem escaped_stable (x : List Char) (d : Char)
    (hd : d ∈ buildEscaped (x.map pyLowerChar) false) : stableChar d := by
  rcases buildEscaped_chars _ _ _ hd with h | ⟨c, hc, hcs, hdc⟩
  · exact h ▸ underscore_stable
  · rcases translit_chars c d hdc with h | ⟨ht, rfl⟩
    · exact ascii_stable d h
    · obtain ⟨c₀, _, rfl⟩ := List.mem_map.mp hc
      exact ⟨pyLower_idem c₀, hcs, ht⟩

theorem buildEscaped_stable_id : ∀ (l : List Char) (b : Bool),
    (∀ c ∈ l, c ∉ specialChars ∧ translit c = [c]) → buildEscaped l b = l
  | [], _, _ => rfl
  | c :: rest, b, h => by
    obtain ⟨hc, ht⟩ := h c (List.mem_cons_self c rest)
    simp only [buildEscaped, if_neg hc, ht]
    rw [buildEscaped_stable_id rest false (fun d hd => h d (List.mem_cons_of_mem c hd))]
    rfl

theorem stripLeading_spec : ∀ (l r : List Char), stripLeading l = some r →
    ∃ n, r = l.drop n ∧ r ≠ [] ∧ r.head? ≠ some '_'
  | [], r => by simp [stripLeading]
  | c :: rest, r => by
    simp only [stripLeading]
    by_cases hc : c = '_'
    · rw [if_pos hc]
      intro h
      obtain ⟨n, h1, h2, h3⟩ := stripLeading_spec rest r h
      exact ⟨n + 1, by simpa using h1, h2, h3⟩
    · rw [if_neg hc]
      intro h
      cases h
      exact ⟨0, rfl, by simp, by simp [hc]⟩

theorem stripLeading_id (l : List Char) (h1 : l ≠ []) (h2 : l.head? ≠ some '_') :
    stripLeading l = some l := by
  cases l with
  | nil => exact absurd rfl h1
  | cons c rest =>
    have : c ≠ '_' := by simpa using h2
    simp [stripLeading, this]

theorem getLast?_cons_ne {α : Type} (a : α) (m : List α) (h : m ≠ []) :
    (a :: m).getLast? = m.getLast? := by
  cases m with
  | nil => exact absurd rfl h
  | cons b t => exact List.getLast?_cons_cons

theorem getLast?_drop_ne : ∀ (n : Nat) (l : List Char), l.drop n ≠ [] →
    (l.drop n).getLast? = l.getLast?
  | 0, l, _ => rfl
  | n + 1, [], h => absurd rfl h
  | n + 1, c :: rest, h => by
    simp only [List.drop_succ_cons] at h ⊢
    rw [getLast?_drop_ne n rest h]
    have : rest ≠ [] := by
      intro he
      rw [he] at h
      simp at h
    rw [getLast?_cons_ne c rest this]

theorem stripTrailing_spec (l r : List Char) (h : stripTrailing l = some r) :
    r ≠ [] ∧ r.getLast? ≠ some '_' ∧ r.head? = l.head? ∧ ∀ d ∈ r, d ∈ l := by
  unfold stripTrailing at h
  cases hl : stripLeading l.reverse with
  | none => rw [hl] at h; simp at h
  | some m =>
    rw [hl] at h
    obtain ⟨n, hm, hne, hh⟩ := stripLeading_spec _ _ hl
    have hsome : some m.reverse = some r := h
    have hr : r = m.reverse := (Option.some.inj hsome).symm
    constructor
    · rw [hr]; simpa using hne
    constructor
    · rw [hr, List.getLast?_reverse]; exact hh
    constructor
    · rw [hr, List.head?_reverse, hm, getLast?_drop_ne n _ (hm ▸ hne),
        List.getLast?_reverse]
    · intro d hd
      rw [hr] at hd
      have : d ∈ m := List.mem_reverse.mp hd
      rw [hm] at this
      have : d ∈ l.reverse := List.mem_of_mem_drop this
      exact List.mem_reverse.mp this

theorem replaceDD_head? : ∀ l : List Char, (replaceDD l).head? = l.head?
  | [] => rfl
  | [c] => rfl
  | c :: d :: rest => by
    by_cases hcd : c = '_' ∧ d = '_'
    · simp only [replaceDD, if_pos hcd, List.head?_cons]
      rw [hcd.1]
    · simp only [replaceDD, if_neg hcd, List.head?_cons]

theorem replaceDD_ne_nil : ∀ l : List Char, l ≠ [] → replaceDD l ≠ []
  | [], h => absurd rfl h
  | [c], _ => by rw [show replaceDD [c] = [c] from rfl]; simp
  | c :: d :: rest, _ => by
    by_cases hcd : c = '_' ∧ d = '_'
    · simp only [replaceDD, if_pos hcd]
      simp
    · simp only [replaceDD, if_neg hcd]
      simp

theorem replaceDD_getLast? : ∀ l : List Char, (replaceDD l).getLast? = l.getLast?
  | [] => rfl
  | [c] => rfl
  | c :: d :: rest => by
    by_cases hcd : c = '_' ∧ d = '_'
    · simp only [replaceDD, if_pos hcd]
      cases rest with
      | nil => simp [replaceDD, hcd.2]
      | cons e rest2 =>
        rw [getLast?_cons_ne '_' _ (replaceDD_ne_nil (e :: rest2) (by simp)),
          replaceDD_getLast? (e :: rest2), List.getLast?_cons_cons,
          List.getLast?_cons_cons]
    · simp only [replaceDD, if_neg hcd]
      rw [getLast?_cons_ne c _ (replaceDD_ne_nil (d :: rest) (by simp)),
        replaceDD_getLast? (d :: rest), List.getLast?_cons_cons]

theorem replaceDD_subset : ∀ (l : List Char) (d : Char), d ∈ replaceDD l → d ∈ l
  | [], _, h => by simp [replaceDD] at h
  | [c], d, h => by simpa [replaceDD] using h
  | c :: e :: rest, d, h => by
    by_cases hcd : c = '_' ∧ e = '_'
    · simp only [replaceDD, if_pos hcd] at h
      rcases List.mem_cons.mp h with h | h
      · simp [h, hcd.1]
      · simp [replaceDD_subset rest d h]
    · simp only [replaceDD, if_neg hcd] at h
      rcases List.mem_cons.mp h with h | h
      · simp [h]
      · simpa using Or.inr (replaceDD_subset (e :: rest) d h)

theorem collapseGo_noDD : ∀ (n : Nat) (l : List Char), l.length ≤ n →
    containsDD (collapseGo n l) = false
  | 0, l, h => by
    have : l = [] := List.eq_nil_of_length_eq_zero (Nat.le_zero.mp h)
    simp [collapseGo, this, containsDD]
  | n + 1, l, h => by
    simp only [collapseGo]
    by_cases hdd : containsDD l = true
    · rw [if_pos hdd]
      have := replaceDD_length_lt l hdd
      exact collapseGo_noDD n (replaceDD l) (by omega)
    · rw [if_neg hdd]
      simpa using hdd

theorem collapseGo_of_noDD (l : List Char) (h : containsDD l = false) :
    ∀ n, collapseGo n l = l
  | 0 => rfl
  | n + 1 => by simp [collapseGo, h]

theorem collapse_noDD (l : List Char) : containsDD (collapse l) = false :=
  collapseGo_noDD l.length l (Nat.le_refl _)

theorem collapse_of_noDD (l : List Char) (h : containsDD l = false) :
    collapse l = l :=
  collapseGo_of_noDD l h l.length

theorem collapseGo_head? : ∀ (n : Nat) (l : List Char),
    (collapseGo n l).head? = l.head?
  | 0, _ => rfl
  | n + 1, l => by
    simp only [collapseGo]
    by_cases hdd : containsDD l = true
    · rw [if_pos hdd, collapseGo_head? n (replaceDD l), replaceDD_head?]
    · rw [if_neg hdd]

theorem collapseGo_getLast? : ∀ (n : Nat) (l : List Char),
    (collapseGo n l).getLast? = l.getLast?
  | 0, _ => rfl
  | n + 1, l => by
    simp only [collapseGo]
    by_cases hdd : containsDD l = true
    · rw [if_pos hdd, collapseGo_getLast? n (replaceDD l), replaceDD_getLast?]
    · rw [if_neg hdd]

theorem collapseGo_subset : ∀ (n : Nat) (l : List Char) (d : Char),
    d ∈ collapseGo n l → d ∈ l
  | 0, _, _, h => h
  | n + 1, l, d, h => by
    simp only [collapseGo] at h
    by_cases hdd : containsDD l = true
    · rw [if_pos hdd] at h
      exact replaceDD_subset l d (collapseGo_subset n (replaceDD l) d h)
    · rwa [if_neg hdd] at h

theorem collapse_head? (l : List Char) : (collapse l).head? = l.head? :=
  collapseGo_head? l.length l

theorem collapse_getLast? (l : List Char) : (collapse l).getLast? = l.getLast? :=
  collapseGo_getLast? l.length l

theorem collapse_subset (l : List Char) (d : Char) (h : d ∈ collapse l) : d ∈ l :=
  collapseGo_subset l.length l d h

theorem map_fix {α : Type} {f : α → α} : ∀ l : List α, (∀ c ∈ l, f c = c) →
    l.map f = l
  | [], _ => rfl
  | c :: rest, h => by
    rw [List.map_cons, h c (List.mem_cons_self c rest),
      map_fix rest (fun d hd => h d (List.mem_cons_of_mem c hd))]

theorem special_lower_fixed : ∀ c ∈ specialChars, pyLowerChar c = c := by decide

theorem buildEscaped_all_special : ∀ l : List Char, (∀ c ∈ l, c ∈ specialChars) →
    buildEscaped l true = [] ∧ buildEscaped l false = if l = [] then [] else ['_']
  | [], _ => by simp [buildEscaped]
  | c :: rest, h => by
    have hc : c ∈ specialChars := h c (List.mem_cons_self c rest)
    have ih := buildEscaped_all_special rest (fun d hd => h d (List.mem_cons_of_mem c hd))
    simp only [buildEscaped, if_pos hc, ih.1]
    simp

theorem mem_insertSorted (a x : String) : ∀ l : List String,
    x ∈ insertSorted a l ↔ x = a ∨ x ∈ l
  | [] => by simp [insertSorted]
  | b :: rest => by
    simp only [insertSorted]
    by_cases hb : pyStrLt a b = true
    · rw [if_pos hb]
      simp
    · rw [if_neg hb]
      rw [List.mem_cons, mem_insertSorted a x rest, List.mem_cons]
      tauto

theorem mem_pySorted (x : String) : ∀ l : List String, x ∈ pySorted l ↔ x ∈ l
  | [] => Iff.rfl
  | a :: rest => by
    simp only [pySorted]
    rw [mem_insertSorted, mem_pySorted x rest, List.mem_cons]

theorem selectName_some_spec : ∀ (names : List (String × String))
    (langs : List String) (lang nm : String),
    selectName names langs = some (lang, nm) →
    langs.find? (fun l => (alookup names l).isSome) = some lang
    ∧ alookup names lang = some nm
  | names, [], lang, nm => by simp [selectName]
  | names, l :: rest, lang, nm => by
    simp only [selectName]
    cases ha : alookup names l with
    | some v =>
      intro h
      obtain ⟨rfl, rfl⟩ : l = lang ∧ v = nm := by
        have := Option.some.inj h
        exact ⟨congrArg Prod.fst this, congrArg Prod.snd this⟩
      constructor
      · rw [List.find?_cons_of_pos]
        simp [ha]
      · exact ha
    | none =>
      intro h
      obtain ⟨h1, h2⟩ := selectName_some_spec names rest lang nm h
      refine ⟨?_, h2⟩
      rw [List.find?_cons_of_neg]
      · exact h1
      · simp [ha]

theorem selectName_mem_some : ∀ (names : List (String × String))
    (langs : List String),
    (∃ l ∈ langs, (alookup names l).isSome) →
    ∃ lang nm, selectName names langs = some (lang, nm)
  | names, [], h => by simp at h
  | names, l :: rest, h => by
    simp only [selectName]
    cases ha : alookup names l with
    | some v => exact ⟨l, v, rfl⟩
    | none =>
      obtain ⟨l', hl', hs⟩ := h
      rcases List.mem_cons.mp hl' with rfl | hl'
      · rw [ha] at hs
        simp at hs
      · exact selectName_mem_some names rest ⟨l', hl', hs⟩

/-! ## Claim theorems about data.py -/

/-- Claim C5. Id derivation priority: for every non-empty names map,
compute_short_station_id picks the first language present in names from the
order English, then the local languages in order, then all name languages
sorted alphabetically, and returns escape(extract_station_name(name,
language)) for that pair; for an empty names map it returns None;
compute_line_id follows the same priority and empty-map behaviour. -/
theorem C5_id_priority (extractS extractL : String → String → String)
    (names : List (String × String)) (locals : List String) :
    (names = [] → compute_short_station_id extractS names locals = .ok none ∧
      compute_line_id extractL names (some locals) = .ok none)
    ∧ (names ≠ [] → ∃ lang nm,
      (priorityLanguages names locals).find? (fun l => (alookup names l).isSome) =
        some lang
      ∧ alookup names lang = some nm
      ∧ compute_short_station_id extractS names locals =
          exceptOfEscape (escape (extractS nm lang))
      ∧ compute_line_id extractL names (some locals) =
          exceptOfEscape (escape (extractL nm lang))) := by
  constructor
  · intro h
    subst h
    exact ⟨by simp [compute_short_station_id], by simp [compute_line_id]⟩
  · intro h
    obtain ⟨p, rest, rfl⟩ : ∃ p rest, names = p :: rest := by
      cases names with
      | nil => exact absurd rfl h
      | cons p rest => exact ⟨p, rest, rfl⟩
    have hlook : alookup (p :: rest) p.1 = some p.2 := by
      simp [alookup, List.find?]
    have hmem : p.1 ∈ priorityLanguages (p :: rest) locals := by
      unfold priorityLanguages
      have h2 : p.1 ∈ pySorted ((p :: rest).map Prod.fst) :=
        (mem_pySorted _ _).mpr (by simp)
      exact List.mem_cons_of_mem _ (List.mem_append.mpr (Or.inr h2))
    obtain ⟨lang, nm, hsel⟩ := selectName_mem_some (p :: rest) _
      ⟨p.1, hmem, by simp [hlook]⟩
    obtain ⟨hfind, hnm⟩ := selectName_some_spec (p :: rest) _ lang nm hsel
    refine ⟨lang, nm, hfind, hnm, ?_, ?_⟩
    · unfold compute_short_station_id
      rw [if_neg h, hsel]
    · unfold compute_line_id
      rw [if_neg h]
      simp only [Option.getD_some]
      rw [hsel]


/-- Claim C5 witness: a concrete names map exercising the non-empty branch. -/
theorem C5_id_priority_witness :
    ([("ru", "Тест")] : List (String × String)) ≠ [] ∧ ∃ lang nm,
      (priorityLanguages [("ru", "Тест")] []).find?
        (fun l => (alookup [("ru", "Тест")] l).isSome) = some lang
      ∧ alookup [("ru", "Тест")] lang = some nm
      ∧ compute_short_station_id (fun n _ => n) [("ru", "Тест")] [] =
          exceptOfEscape (escape ((fun (n : String) (_ : String) => n) nm lang))
      ∧ compute_line_id (fun n _ => n) [("ru", "Тест")] (some []) =
          exceptOfEscape (escape ((fun (n : String) (_ : String) => n) nm lang)) :=
  ⟨by decide,
   (C5_id_priority (fun n _ => n) (fun n _ => n) [("ru", "Тест")] []).2 (by decide)⟩

/-- Claim C9 counterexample: the underscore string is ASCII-safe in the sense
of the sanctioned output alphabet of escape (letters, digits, underscore, see
data.py line 358), yet escape has no value on it: the stripping loop raises
IndexError, so the equation escape(escape(x)) == escape(x) has no value at
x = underscore. -/
theorem C9_counterexample :
    (∀ c ∈ ("_" : String).toList,
      ('a' ≤ c ∧ c ≤ 'z') ∨ ('0' ≤ c ∧ c ≤ '9') ∨ c = '_')
    ∧ escape "_" = none := by decide

/-- Claim C9 (amended): escape is idempotent on every input where it returns
a value, and in particular on every output of escape: if escape x returns y
then escape y returns y unchanged. -/
theorem C9_escape_idem (x y : String) (h : escape x = some y) :
    escape y = some y := by
  revert h
  unfold escape
  cases h1 : stripLeading (buildEscaped (x.toList.map pyLowerChar) false) with
  | none => intro h; simp at h
  | some l1 =>
    intro h
    have hm : (match stripTrailing l1 with
      | none => none
      | some l2 => some (String.mk (collapse l2))) = some y := h
    cases h2 : stripTrailing l1 with
    | none => rw [h2] at hm; simp at hm
    | some l2 =>
      rw [h2] at hm
      have hy : y = String.mk (collapse l2) := by
        have hsome : some (String.mk (collapse l2)) = some y := hm
        exact (Option.some.inj hsome).symm
      obtain ⟨n1, hl1, hl1ne, hl1h⟩ := stripLeading_spec _ _ h1
      obtain ⟨hl2ne, hl2last, hl2head, hl2sub⟩ := stripTrailing_spec _ _ h2
      have hstable : ∀ d ∈ collapse l2, stableChar d := by
        intro d hd
        have hd2 : d ∈ l2 := collapse_subset l2 d hd
        have hd1 : d ∈ l1 := hl2sub d hd2
        have hde : d ∈ buildEscaped (x.toList.map pyLowerChar) false := by
          rw [hl1] at hd1
          exact List.mem_of_mem_drop hd1
        exact escaped_stable _ d hde
      have hhead : (collapse l2).head? = l1.head? := by
        rw [collapse_head?, hl2head]
      have hlast : (collapse l2).getLast? ≠ some '_' := by
        rw [collapse_getLast?]
        exact hl2last
      have hne : collapse l2 ≠ [] := by
        intro he
        rw [he] at hhead
        cases hc : l1.head? with
        | none => exact hl1ne (List.head?_eq_none_iff.mp hc)
        | some c => rw [hc] at hhead; simp at hhead
      have hheadne : (collapse l2).head? ≠ some '_' := by
        rw [hhead]
        exact hl1h
      -- second pass
      have hytl : y.toList = collapse l2 := by rw [hy]; rfl
      have hlow : y.toList.map pyLowerChar = collapse l2 := by
        rw [hytl]
        exact map_fix _ (fun c hc => (hstable c hc).1)
      have hbuild : buildEscaped (collapse l2) false = collapse l2 :=
        buildEscaped_stable_id _ false
          (fun c hc => ⟨(hstable c hc).2.1, (hstable c hc).2.2⟩)
      have hstrip1 : stripLeading (collapse l2) = some (collapse l2) :=
        stripLeading_id _ hne hheadne
      have hstrip2 : stripTrailing (collapse l2) = some (collapse l2) := by
        unfold stripTrailing
        have hrne : (collapse l2).reverse ≠ [] := by simpa using hne
        have hrh : (collapse l2).reverse.head? ≠ some '_' := by
          rw [List.head?_reverse]
          exact hlast
        rw [stripLeading_id _ hrne hrh]
        simp
      have hcoll : collapse (collapse l2) = collapse l2 :=
        collapse_of_noDD _ (collapse_noDD l2)
      rw [hlow, hbuild]
      simp only [hstrip1, hstrip2, hcoll]
      rw [hy]

/-- Claim C9 witness: a concrete round trip through escape. -/
theorem C9_escape_idem_witness :
    escape "Baker Street" = some "baker_street"
    ∧ escape "baker_street" = some "baker_street" :=
  ⟨by decide, C9_escape_idem "Baker Street" "baker_street" (by decide)⟩

/-- Claim C10. Implicit edge case: on the empty string and on every string of
characters from the punctuation, space and separator set of escape, the
leading-underscore stripping loop raises IndexError (none here); when the
language-selection of compute_short_station_id or compute_line_id picks a
name whose extraction is such a string, both propagate the error. -/
theorem C10_escape_special_raises (s : String)
    (h : ∀ c ∈ s.toList, c ∈ specialChars) :
    escape s = none
    ∧ ∀ (extract : String → String → String) (names : List (String × String))
        (locals : List String) (lang nm : String),
        names ≠ [] →
        selectName names (priorityLanguages names locals) = some (lang, nm) →
        extract nm lang = s →
        compute_short_station_id extract names locals = .error .indexError
        ∧ compute_line_id extract names (some locals) = .error .indexError := by
  have hnone : escape s = none := by
    unfold escape
    have hmapfix : s.toList.map pyLowerChar = s.toList :=
      map_fix _ (fun c hc => special_lower_fixed c (h c hc))
    rw [hmapfix]
    rcases buildEscaped_all_special s.toList h with ⟨_, hfalse⟩
    rw [hfalse]
    by_cases he : s.toList = []
    · rw [if_pos he]
      rfl
    · rw [if_neg he]
      rfl
  refine ⟨hnone, ?_⟩
  intro extract names locals lang nm hne hsel hex
  constructor
  · unfold compute_short_station_id
    rw [if_neg hne, hsel]
    show exceptOfEscape (escape (extract nm lang)) = Except.error PyErr.indexError
    rw [hex, hnone]
    rfl
  · unfold compute_line_id
    rw [if_neg hne]
    simp only [Option.getD_some]
    rw [hsel]
    show exceptOfEscape (escape (extract nm lang)) = Except.error PyErr.indexError
    rw [hex, hnone]
    rfl

/-- Claim C10 witness: the dash, a punctuation-only string, makes escape and
both id computations raise. -/
theorem C10_escape_special_raises_witness :
    escape "-" = none
    ∧ compute_short_station_id (fun _ _ => "-") [("en", "x")] [] =
        .error .indexError
    ∧ compute_line_id (fun _ _ => "-") [("en", "x")] (some []) =
        .error .indexError :=
  ⟨(C10_escape_special_raises "-" (by decide)).1,
   ((C10_escape_special_raises "-" (by decide)).2 (fun _ _ => "-") [("en", "x")]
     [] "en" "x" (by decide) (by decide) rfl).1,
   ((C10_escape_special_raises "-" (by decide)).2 (fun _ _ => "-") [("en", "x")]
     [] "en" "x" (by decide) (by decide) rfl).2⟩

/-! ## station.py: stations, connections, the terminus rule -/

/-- Connection types (station.py lines 463-466). -/
inductive ConnectionType
  | NEXT
  | TRANSITION
  | SAME
  deriving DecidableEq

/-- Object statuses (station.py lines 525-533). -/
inductive ObjectStatus
  | OPEN
  | CLOSED
  | UNDER_CONSTRUCTION
  | PLANNED
  deriving DecidableEq

/-- A station as the terminus rule of station.py sees it: the "type" value of
the status dict and the connection list.  A connection holds the target
station (an index into a station list, standing for the Python object
reference) and its type. -/
structure StationRec where
  status : Option ObjectStatus := none
  conns : List (Nat × ConnectionType) := []
  deriving DecidableEq

/-- is_hidden (station.py lines 438-444): the station is not currently in
operation. -/
def is_hidden (s : StationRec) : Bool :=
  decide (s.status ∈ [some ObjectStatus.CLOSED,
    some ObjectStatus.UNDER_CONSTRUCTION, some ObjectStatus.PLANNED])

/-- Hidden-ness of the station a connection points to. -/
def hiddenAt (arena : List StationRec) (i : Nat) : Bool :=
  is_hidden (arena.getD i {})

/-- The first counter of is_terminus: NEXT connections to non-hidden
stations. -/
def countNextVisible (arena : List StationRec) (s : StationRec) : Nat :=
  (s.conns.filter
    (fun c => decide (c.2 = ConnectionType.NEXT ∧ hiddenAt arena c.1 = false))).length

/-- The second counter of is_terminus: NEXT connections to hidden stations. -/
def countNextHidden (arena : List StationRec) (s : StationRec) : Nat :=
  (s.conns.filter
    (fun c => decide (c.2 = ConnectionType.NEXT ∧ hiddenAt arena c.1 = true))).length

/-- is_terminus (station.py lines 361-386): any transition connection gives
False; otherwise the two counters are compared with one, including the hidden
counter only for a hidden station. -/
def is_terminus (arena : List StationRec) (s : StationRec) : Bool :=
  if s.conns.any (fun c => c.2 = ConnectionType.TRANSITION) then false
  else
    if is_hidden s then
      if countNextVisible arena s + countNextHidden arena s > 1 then false
      else true
    else
      if countNextVisible arena s > 1 then false
      else true

/-- Claim C8. Terminus rule: is_terminus is True iff the station has no
TRANSITION connection and N is at most one, where N counts NEXT connections
to non-hidden targets plus, when the station itself is hidden, NEXT
connections to hidden targets; is_hidden is true iff the status is CLOSED,
UNDER_CONSTRUCTION or PLANNED; in particular two NEXT edges to non-hidden
stations with no TRANSITION edge give False and zero NEXT edges give True. -/
theorem C8_terminus_rule :
    (∀ (arena : List StationRec) (s : StationRec),
      is_terminus arena s = true ↔
        ((¬ ∃ c ∈ s.conns, c.2 = ConnectionType.TRANSITION) ∧
          countNextVisible arena s
            + (if is_hidden s then countNextHidden arena s else 0) ≤ 1))
    ∧ (∀ s : StationRec, is_hidden s = true ↔
        (s.status = some ObjectStatus.CLOSED ∨
         s.status = some ObjectStatus.UNDER_CONSTRUCTION ∨
         s.status = some ObjectStatus.PLANNED))
    ∧ is_terminus [{}, {}]
        { conns := [(0, ConnectionType.NEXT), (1, ConnectionType.NEXT)] } = false
    ∧ is_terminus [] {} = true := by
  refine ⟨?_, ?_, by decide, by decide⟩
  · intro arena s
    unfold is_terminus
    by_cases ht : s.conns.any (fun c => c.2 = ConnectionType.TRANSITION) = true
    · rw [if_pos ht]
      simp only [List.any_eq_true] at ht
      obtain ⟨c, hc, hct⟩ := ht
      constructor
      · intro hf
        simp at hf
      · rintro ⟨hnt, -⟩
        exact absurd ⟨c, hc, of_decide_eq_true hct⟩ hnt
    · rw [if_neg ht]
      have hnt : ¬ ∃ c ∈ s.conns, c.2 = ConnectionType.TRANSITION := by
        rintro ⟨c, hc, hct⟩
        exact ht (List.any_eq_true.mpr ⟨c, hc, decide_eq_true hct⟩)
      by_cases hh : is_hidden s = true
      · rw [if_pos hh, if_pos hh]
        by_cases hcnt : countNextVisible arena s + countNextHidden arena s > 1
        · rw [if_pos hcnt]
          simp only [Bool.false_eq_true, false_iff]
          rintro ⟨-, hle⟩
          omega
        · rw [if_neg hcnt]
          simp only [true_iff]
          exact ⟨hnt, by omega⟩
      · rw [if_neg hh, if_neg hh]
        by_cases hcnt : countNextVisible arena s > 1
        · rw [if_pos hcnt]
          simp only [Bool.false_eq_true, false_iff]
          rintro ⟨-, hle⟩
          omega
        · rw [if_neg hcnt]
          simp only [true_iff]
          exact ⟨hnt, by omega⟩
  · intro s
    unfold is_hidden
    constructor
    · intro h
      simpa using of_decide_eq_true h
    · intro h
      apply decide_eq_true
      simpa using h

/-! ## wikidata.py: raw item structures

The JSON structures returned by the knowledge base are modelled just deep
enough for every field the source reads.  A datavalue carries the fields the
code extracts from claim values: the "id" string, the "numeric-id" number,
and the plain string payload (used by colour claims).  A qualifier is
modelled by the value under its "datavalue"/"value" keys. -/

/-- The value of a claim or qualifier (the "datavalue"/"value" object). -/
structure RawValue where
  id : String := ""
  numericId : Nat := 0
  str : String := ""
  deriving DecidableEq

/-- A claim: the optional datavalue of its mainsnak, and optional qualifiers
keyed by property. -/
structure RawClaim where
  datavalue : Option RawValue := none
  qualifiers : Option (List (String × List RawValue)) := none
  deriving DecidableEq

/-- An entity: claims keyed by property, labels, descriptions, aliases and
site links keyed by language or site (label and description objects are
collapsed to their "value" string). -/
structure RawEntity where
  claims : Option (List (String × List RawClaim)) := none
  labels : Option (List (String × String)) := none
  descriptions : Option (List (String × String)) := none
  aliases : Option (List (String × List String)) := none
  sitelinks : Option (List (String × String)) := none
  deriving DecidableEq

/-- A raw item structure: the optional "entities" object, keyed by the
Q-prefixed item id. -/
structure RawStructure where
  entities : Option (List (String × RawEntity)) := none
  deriving DecidableEq

/-- The entity extraction of WikidataItem.__init__ (wikidata.py lines 79-85):
the code logs when "entities" or the Q-id key is absent, but then indexes
structure["entities"][Q-id] unconditionally, so an absent key raises
KeyError. -/
def getEntity (raw : RawStructure) (wikidataId : Nat) : Except PyErr RawEntity :=
  match raw.entities with
  | none => .error .keyError
  | some ents =>
    match alookup ents ("Q" ++ toString wikidataId) with
    | none => .error .keyError
    | some e => .ok e

/-- The fields WikidataItem.__init__ derives (wikidata.py lines 72-110). -/
structure WikidataItem where
  wikidataId : Nat
  entity : RawEntity
  claims : List (String × List RawClaim)
  names : List (String × String)
  descriptions : List (String × String)
  aliases : List (String × List String)
  siteLinks : List (String × String)
  deriving DecidableEq

/-- WikidataItem.__init__ (wikidata.py lines 72-110). -/
def wikidataItemInit (raw : RawStructure) (wid : Nat) : Except PyErr WikidataItem := do
  let entity ← getEntity raw wid
  .ok { wikidataId := wid
        entity := entity
        claims := entity.claims.getD []
        names := entity.labels.getD []
        descriptions := entity.descriptions.getD []
        aliases := entity.aliases.getD []
        siteLinks := entity.sitelinks.getD [] }

/-- get_name (wikidata.py lines 111-119). -/
def wdGetName (it : WikidataItem) (language : String) : Option String :=
  match it.entity.labels with
  | none => none
  | some labels => alookup labels language

/-- get_any_name (wikidata.py lines 132-138): "unknown" without labels, the
English label when present, otherwise the first label; next() on an empty
labels dict raises StopIteration. -/
def wdGetAnyName (it : WikidataItem) : Except PyErr String :=
  match it.entity.labels with
  | none => .ok "unknown"
  | some labels =>
    match alookup labels "en" with
    | some v => .ok v
    | none =>
      match labels with
      | [] => .error .stopIteration
      | p :: _ => .ok p.2

/-- get_value (wikidata.py lines 156-157): indexing a mainsnak without a
datavalue raises KeyError. -/
def getValue (c : RawClaim) : Except PyErr RawValue :=
  match c.datavalue with
  | none => .error .keyError
  | some v => .ok v

/-- Python list indexing [0]: an empty claim list raises IndexError. -/
def firstClaim : List RawClaim → Except PyErr RawClaim
  | [] => .error .indexError
  | c :: _ => .ok c

/-- Claim C7 evidence: an entirely absent entity section raises KeyError from
WikidataItem.__init__ instead of producing an empty item, both when the
"entities" key is missing and when it lacks the requested Q-id. -/
theorem C7_missing_entity_raises :
    wikidataItemInit { entities := none } 1 = .error .keyError
    ∧ wikidataItemInit { entities := some [("Q2", {})] } 1 = .error .keyError := by
  decide

/-! ## wikidata.py: WikidataStationItem decoding -/

/-- The P31 instance-of loop (wikidata.py lines 189-196): the metro branch is
a no-op, surface and underground set the structure type, later claims
override; a claim without a datavalue raises KeyError through get_value. -/
def decodeInstanceOf : List RawClaim → Option String → Except PyErr (Option String)
  | [], acc => .ok acc
  | c :: rest, acc => do
    let v ← getValue c
    let acc :=
      if v.id = "Q22808404" then some "ground"
      else if v.id = "Q22808403" then some "underground"
      else acc
    decodeInstanceOf rest acc

/-- The P361 and P16 reads (wikidata.py lines 200-204): the first claim of
each property contributes its numeric id to the system id set.  The set later
also receives optional values, hence Option Nat elements. -/
def initialSystemIds (claims : List (String × List RawClaim)) :
    Except PyErr (List (Option Nat)) := do
  let s0 : List (Option Nat) := []
  let s1 ←
    match alookup claims "P361" with
    | none => pure s0
    | some cs => do
      let c ← firstClaim cs
      let v ← getValue c
      pure (setInsert s0 (some v.numericId))
  match alookup claims "P16" with
  | none => pure s1
  | some cs => do
    let c ← firstClaim cs
    let v ← getValue c
    pure (setInsert s1 (some v.numericId))

/-- The P81 line loop (wikidata.py lines 241-251): claims without a datavalue
are skipped with a warning, claims with an end-date qualifier (P582) are
skipped, the rest contribute their numeric id in order. -/
def decodeLineClaims : List RawClaim → List Nat
  | [] => []
  | c :: rest =>
    match c.datavalue with
    | none => decodeLineClaims rest
    | some v =>
      match c.qualifiers with
      | some qs =>
        if (alookup qs "P582").isSome then decodeLineClaims rest
        else v.numericId :: decodeLineClaims rest
      | none => v.numericId :: decodeLineClaims rest

/-- The qualifier loop of a next-station claim (wikidata.py lines 263-265):
every P81 qualifier overwrites the specified line id, so the last one is
kept; no P81 qualifier leaves it None. -/
def lastQualifierLineId (qs : List (String × List RawValue)) : Option Nat :=
  match alookup qs "P81" with
  | none => none
  | some quals =>
    match quals.getLast? with
    | none => none
    | some v => some v.numericId

/-- The P197 next-station loop (wikidata.py lines 255-276): claims without a
datavalue are skipped; the edge line id starts at 0, a truthy qualifier value
replaces it, and a station with exactly one line id replaces it again -- the
two ifs are not chained, so the single line wins over the qualifier. -/
def decodeNextClaims (lineIds : List Nat) : List RawClaim → List (Nat × Nat)
  | [] => []
  | c :: rest =>
    match c.datavalue with
    | none => decodeNextClaims lineIds rest
    | some v =>
      let specified : Option Nat :=
        match c.qualifiers with
        | none => none
        | some qs => lastQualifierLineId qs
      let lineId : Nat := 0
      let lineId : Nat :=
        match specified with
        | some n => if n = 0 then lineId else n
        | none => lineId
      let lineId : Nat := if lineIds.length = 1 then lineIds.headI else lineId
      (v.numericId, lineId) :: decodeNextClaims lineIds rest

/-- The P833 transition loop (wikidata.py lines 280-286). -/
def decodeTransitionClaims : List RawClaim → List Nat
  | [] => []
  | c :: rest =>
    match c.datavalue with
    | none => decodeTransitionClaims rest
    | some v => v.numericId :: decodeTransitionClaims rest

/-- A next-station claim carrying both a line qualifier (line 5) and a
target (station 9), for a station that has exactly one line (line 7). -/
def c4Claim : RawClaim :=
  { datavalue := some { numericId := 9 },
    qualifiers := some [("P81", [{ numericId := 5 }])] }

/-- Claim C4 counterexample: with a line qualifier naming line 5 present on
the claim and a station belonging exactly to line 7, the decoded edge carries
line 7, not the qualifier line 5 -- the claim says a present qualifier
determines the edge's line id. -/
theorem C4_counterexample :
    decodeNextClaims [7] [c4Claim] = [(9, 7)]
    ∧ decodeNextClaims [7] [c4Claim] ≠ [(9, 5)] := by decide

/-- Claim C4 (amended): for every decoded next-station claim, a station with
exactly one line id uses that line, overriding any qualifier; otherwise a
present truthy line qualifier (its last P81 entry) determines the edge's line
id; otherwise the line id is the sentinel 0; claims without a datavalue are
dropped. -/
theorem C4_next_line_resolution (lineIds : List Nat) :
    ∀ claims : List RawClaim,
    decodeNextClaims lineIds claims =
      claims.filterMap (fun c =>
        match c.datavalue with
        | none => none
        | some v => some (v.numericId,
            if lineIds.length = 1 then lineIds.headI
            else
              match (match c.qualifiers with
                     | none => none
                     | some qs => lastQualifierLineId qs) with
              | some n => if n = 0 then 0 else n
              | none => 0))
  | [] => rfl
  | c :: rest => by
    simp only [decodeNextClaims, List.filterMap_cons]
    cases hd : c.datavalue with
    | none => exact C4_next_line_resolution lineIds rest
    | some v =>
      rw [C4_next_line_resolution lineIds rest]


/-! ## wikidata.py: station and line item views -/

/-- The fields of WikidataStationItem (wikidata.py lines 182-304) that the
crawler reads.  The attributes no claim observes and that the crawler only
copies into stations (status, open time, geo position, depth) are the
abstract attrs value; see the file header. -/
structure WDStationItem (σ : Type) where
  item : WikidataItem
  structureType : Option String
  systemIds : List (Option Nat)
  lineIds : List Nat
  nextConns : List (Nat × Nat)
  transitionConns : List Nat
  attrs : σ
  deriving DecidableEq

/-- WikidataStationItem.__init__ (wikidata.py lines 182-304).  mkAttrs is the
abstract attribute computation; its Except result carries the index and key
errors the attribute extraction can raise (for example an empty P625 claim
list). -/
def stationItemInit {σ : Type} (mkAttrs : RawEntity → Except PyErr σ)
    (raw : RawStructure) (wid : Nat) : Except PyErr (WDStationItem σ) := do
  let it ← wikidataItemInit raw wid
  let structureType ←
    match alookup it.claims "P31" with
    | none => pure none
    | some cs => decodeInstanceOf cs none
  let systemIds ← initialSystemIds it.claims
  let attrs ← mkAttrs it.entity
  let lineIds :=
    match alookup it.claims "P81" with
    | none => []
    | some cs => decodeLineClaims cs
  let nextConns :=
    match alookup it.claims "P197" with
    | none => []
    | some cs => decodeNextClaims lineIds cs
  let transitionConns :=
    match alookup it.claims "P833" with
    | none => []
    | some cs => decodeTransitionClaims cs
  .ok { item := it, structureType := structureType, systemIds := systemIds,
        lineIds := lineIds, nextConns := nextConns,
        transitionConns := transitionConns, attrs := attrs }

/-- The fields of WikidataLineItem (wikidata.py lines 319-347). -/
structure WDLineItem where
  item : WikidataItem
  id_ : Option String
  color : Option String
  systemId : Option Nat
  deriving DecidableEq

/-- The qualifier-key loop of the complex colour claim (wikidata.py lines
331-339): a P465 key makes the colour the first value of the P465 qualifier
list, an empty list raising IndexError. -/
def complexColorLoop (qsFull : List (String × List RawValue)) :
    List (String × List RawValue) → Option String → Except PyErr (Option String)
  | [], acc => .ok acc
  | q :: rest, acc =>
    if q.1 = "P465" then
      match alookup qsFull "P465" with
      | none => .error .keyError
      | some vs =>
        match vs with
        | [] => .error .indexError
        | v :: _ => complexColorLoop qsFull rest (some ("#" ++ v.str))
    else complexColorLoop qsFull rest acc

/-- The colour extraction of WikidataLineItem.__init__ (wikidata.py lines
325-339). -/
def decodeColor (claims : List (String × List RawClaim)) :
    Except PyErr (Option String) := do
  let c0 : Option String ←
    match alookup claims "P465" with
    | none => pure none
    | some cs => do
      let c ← firstClaim cs
      let v ← getValue c
      pure (some ("#" ++ v.str))
  match alookup claims "P462" with
  | none => pure c0
  | some cs => do
    let c ← firstClaim cs
    match c.qualifiers with
    | none => pure c0
    | some qs => complexColorLoop qs qs c0

/-- WikidataLineItem.__init__ (wikidata.py lines 320-347). -/
def lineItemInit (extractL : String → String → String) (raw : RawStructure)
    (wid : Nat) (localLanguages : Option (List String)) :
    Except PyErr WDLineItem := do
  let it ← wikidataItemInit raw wid
  let id_ ← compute_line_id extractL it.names localLanguages
  let color ← decodeColor it.claims
  let systemId : Option Nat ←
    match alookup it.claims "P361" with
    | none => pure none
    | some cs => do
      let c ← firstClaim cs
      let v ← getValue c
      pure (some v.numericId)
  let systemId : Option Nat ←
    match alookup it.claims "P16" with
    | none => pure systemId
    | some cs => do
      let c ← firstClaim cs
      let v ← getValue c
      pure (some v.numericId)
  .ok { item := it, id_ := id_, color := color, systemId := systemId }

/-! ## wikidata.py: the crawler world

Line and Station objects live in arenas and are referenced by index, which
models Python object identity.  A System holds its lines and stations as
dicts, as the crawler accesses them (system.lines[id], system.stations[id]).
Stations carry a ghost srcItem field recording which Wikidata item created
them; it only serves the provenance statements of the claims. -/

/-- A Line object as the crawler manipulates it. -/
structure LineObj where
  id_ : Option String := none
  color : Option String := none
  names : List (String × String) := []
  deriving DecidableEq

/-- A Station object as the crawler manipulates it. -/
structure StationObj (σ : Type) where
  id_ : String := ""
  srcItem : Option Nat := none
  line : Option Nat := none
  names : List (String × String) := []
  siteLinks : List (String × String) := []
  conns : List (Nat × ConnectionType) := []
  attrs : Option σ := none
  deriving DecidableEq

/-- A System object: its line dict (line id to arena index) and station dict
(station id to arena index). -/
structure SystemObj where
  lines : List (Option String × Nat) := []
  stations : List (String × Nat) := []
  deriving DecidableEq

/-- The Map object: names, local languages and the system dict. -/
structure MapObj where
  names : List (String × String) := []
  localLanguages : List String := []
  systems : List (String × SystemObj) := []
  deriving DecidableEq

/-- The whole mutable world of a crawl: the map and the two object arenas. -/
structure World (σ : Type) where
  map : MapObj := {}
  lineArena : List LineObj := []
  stationArena : List (StationObj σ) := []
  deriving DecidableEq

/-- The station object an arena index refers to. -/
def stationAt {σ : Type} (w : World σ) (idx : Nat) : StationObj σ :=
  w.stationArena.getD idx {}

/-- add_connection (station.py lines 399-414): the first existing connection
to the target keeps its place but changes type when different; otherwise a
new connection is appended. -/
def connAdd (conns : List (Nat × ConnectionType)) (tgt : Nat)
    (ty : ConnectionType) : List (Nat × ConnectionType) :=
  match conns with
  | [] => [(tgt, ty)]
  | c :: rest =>
    if c.1 = tgt then
      if c.2 ≠ ty then (tgt, ty) :: rest else c :: rest
    else c :: connAdd rest tgt ty

/-- Apply add_connection to the station at the given arena index. -/
def worldAddConn {σ : Type} (w : World σ) (src tgt : Nat)
    (ty : ConnectionType) : World σ :=
  { w with stationArena :=
      (List.modify (fun s => { s with conns := connAdd s.conns tgt ty }) src
        w.stationArena) }

/-- The system object registered under a name; parser construction validates
that every name of the systems dict is present, so the default is never
consulted in a run that passed validation. -/
def getSystem {σ : Type} (w : World σ) (name : String) : SystemObj :=
  (alookup w.map.systems name).getD {}

/-- Store a system object back under its name. -/
def setSystem {σ : Type} (w : World σ) (name : String) (sys : SystemObj) :
    World σ :=
  { w with map := { w.map with systems := ainsert w.map.systems name sys } }

/-! ## wikidata.py: WikidataCityParser -/

/-- The inputs of a crawl: the abstracted collaborators (regex matching, the
fetch function standing for parse_wikidata, the abstract attribute
computation, the two name extractors) and the caller-supplied configuration
(systems of interest, network_update patterns, the optional station limit). -/
structure ParserCtx (σ : Type) where
  regexM : String → String → Bool
  fetch : Nat → RawStructure
  mkAttrs : RawEntity → Except PyErr σ
  extractS : String → String → String
  extractL : String → String → String
  systemsDict : List (Nat × String)
  networkUpdate : List String
  limit : Option Nat := none

/-- The crawler constructor resolves every system name (wikidata.py lines
416-418); a missing key raises KeyError. -/
def validateSystems {σ : Type} (w : World σ) :
    List (Nat × String) → Except PyErr Unit
  | [] => .ok ()
  | e :: rest =>
    match alookup w.map.systems e.2 with
    | none => .error .keyError
    | some _ => validateSystems w rest

/-- The mutable preprocessing state of parse (wikidata.py lines 406-437). -/
structure CrawlState (σ : Type) where
  toParse : List Nat
  parsedStations : List Nat := []
  parsedLines : List Nat := []
  stationItems : List (Nat × WDStationItem σ) := []
  lineItems : List (Nat × WDLineItem) := []
  count : Nat := 0
  deriving DecidableEq

/-- The network_update loop (wikidata.py lines 442-446): when the English
name is truthy and matches a pattern, the item is refetched and rebuilt. -/
def networkUpdateLoop {σ : Type} (ctx : ParserCtx σ) (wid : Nat) :
    WDStationItem σ → List String → Except PyErr (WDStationItem σ)
  | it, [] => .ok it
  | it, p :: rest =>
    let matched : Bool :=
      match wdGetName it.item "en" with
      | none => false
      | some s => decide (s ≠ "") && ctx.regexM p s
    if matched then do
      let it2 ← stationItemInit ctx.mkAttrs (ctx.fetch wid) wid
      networkUpdateLoop ctx wid it2 rest
    else networkUpdateLoop ctx wid it rest

/-- The line prefetch loop (wikidata.py lines 450-458): unseen line ids are
fetched, built and recorded. -/
def fetchLineItems {σ : Type} (ctx : ParserCtx σ) (locals : List String) :
    CrawlState σ → List Nat → Except PyErr (CrawlState σ)
  | st, [] => .ok st
  | st, lid :: rest =>
    if lid ∈ st.parsedLines then fetchLineItems ctx locals st rest
    else do
      let li ← lineItemInit ctx.extractL (ctx.fetch lid) lid (some locals)
      fetchLineItems ctx locals
        { st with lineItems := ainsert st.lineItems lid li,
                  parsedLines := setInsert st.parsedLines lid } rest

/-- The system resolution loop (wikidata.py lines 464-466): every line of the
item contributes its line item's system id (possibly None) to the system id
set. -/
def resolveSystemsGo (lineItems : List (Nat × WDLineItem)) :
    List Nat → List (Option Nat) → Except PyErr (List (Option Nat))
  | [], acc => .ok acc
  | lid :: rest, acc =>
    match alookup lineItems lid with
    | none => .error .keyError
    | some li => resolveSystemsGo lineItems rest (setInsert acc li.systemId)

/-- The interest check (wikidata.py lines 470-482): true iff some resolved
system id or some line id is a key of the systems dict. -/
def isSystemOfInterest {σ : Type} (ctx : ParserCtx σ) (it : WDStationItem σ) :
    Bool :=
  it.systemIds.any (fun s =>
    match s with
    | some n => (alookup ctx.systemsDict n).isSome
    | none => false)
  || it.lineIds.any (fun l => (alookup ctx.systemsDict l).isSome)

/-- The future-station registration loops (wikidata.py lines 492-506). -/
def addToParse {σ : Type} (st : CrawlState σ) (ids : List Nat) : CrawlState σ :=
  ids.foldl (fun st other =>
    if other ∉ st.parsedStations ∧ other ∉ st.toParse then
      { st with toParse := st.toParse ++ [other] }
    else st) st

/-- The break condition `if limit and count > limit` (wikidata.py line 461). -/
def limitBreak (limit : Option Nat) (count : Nat) : Bool :=
  match limit with
  | some n => decide (n ≠ 0) && decide (count > n)
  | none => false

/-- One iteration of the preprocessing while loop (wikidata.py lines
436-506), acting on the state after the id was popped; the boolean reports
the limit break. -/
def crawlStep {σ : Type} (ctx : ParserCtx σ) (locals : List String)
    (st : CrawlState σ) (wid : Nat) : Except PyErr (CrawlState σ × Bool) := do
  let item0 ← stationItemInit ctx.mkAttrs (ctx.fetch wid) wid
  let item1 ← networkUpdateLoop ctx wid item0 ctx.networkUpdate
  let st := { st with parsedStations := setInsert st.parsedStations wid }
  let st ← fetchLineItems ctx locals st item1.lineIds
  let st := { st with count := st.count + 1 }
  if limitBreak ctx.limit st.count then
    .ok (st, true)
  else do
    let sys ← resolveSystemsGo st.lineItems item1.lineIds item1.systemIds
    let item2 := { item1 with systemIds := sys }
    if isSystemOfInterest ctx item2 then
      let st := { st with stationItems := ainsert st.stationItems wid item2 }
      let st := addToParse st item2.transitionConns
      let st := addToParse st (item2.nextConns.map Prod.fst)
      .ok (st, false)
    else do
      let _ ← wdGetAnyName item2.item
      .ok (st, false)

/-- The preprocessing while loop (wikidata.py lines 436-506).  The to-parse
set is a duplicate-free list popped at the head; the fuel bounds the number
of iterations, exactly as many as there are reachable items in a terminating
run. -/
def crawlLoop {σ : Type} (ctx : ParserCtx σ) (locals : List String) :
    Nat → CrawlState σ → Except PyErr (CrawlState σ)
  | 0, st => .ok st
  | fuel + 1, st =>
    match st.toParse with
    | [] => .ok st
    | wid :: rest => do
      let r ← crawlStep ctx locals { st with toParse := rest } wid
      if r.2 then .ok r.1 else crawlLoop ctx locals fuel r.1

/-- fill_line (wikidata.py lines 359-369): copy a truthy colour and the
extracted names onto the line object. -/
def fillLine (extractL : String → String → String) (li : WDLineItem)
    (lo : LineObj) : LineObj :=
  let lo :=
    match li.color with
    | some c => if c ≠ "" then { lo with color := some c } else lo
    | none => lo
  { lo with names :=
      li.item.names.foldl (fun ns p => ainsert ns p.1 (extractL p.2 p.1)) lo.names }

/-- create_line (wikidata.py lines 349-357): a fresh Line object with the
item's id, filled by the same statements as fill_line. -/
def createLine (extractL : String → String → String) (li : WDLineItem) :
    LineObj :=
  fillLine extractL li { id_ := li.id_ }

/-- One step of the line-materialisation loop (wikidata.py lines 514-534). -/
def phase2Step {σ : Type} (ctx : ParserCtx σ) (w : World σ)
    (lines : List (Nat × Nat)) (lwid : Nat) (li : WDLineItem) :
    Except PyErr (World σ × List (Nat × Nat)) :=
  match (match li.systemId with
         | some n => if n = 0 then none else alookup ctx.systemsDict n
         | none => none) with
  | some name =>
    let sys := getSystem w name
    match alookup sys.lines li.id_ with
    | some idx =>
      let w := { w with lineArena := List.modify (fillLine ctx.extractL li) idx w.lineArena }
      .ok (w, ainsert lines lwid idx)
    | none =>
      let newLine := createLine ctx.extractL li
      let idx := w.lineArena.length
      let w := { w with lineArena := w.lineArena ++ [newLine] }
      let w := setSystem w name { sys with lines := ainsert sys.lines newLine.id_ idx }
      .ok (w, ainsert lines lwid idx)
  | none =>
    match alookup ctx.systemsDict lwid with
    | some name =>
      let sys := getSystem w name
      match alookup sys.lines li.id_ with
      | some idx =>
        let w := { w with lineArena := List.modify (fillLine ctx.extractL li) idx w.lineArena }
        .ok (w, ainsert lines lwid idx)
      | none => .error .keyError
    | none => .ok (w, lines)

/-- The line-materialisation loop (wikidata.py lines 512-534), walking the
line items in insertion order. -/
def phase2 {σ : Type} (ctx : ParserCtx σ) :
    World σ → List (Nat × Nat) → List (Nat × WDLineItem) →
    Except PyErr (World σ × List (Nat × Nat))
  | w, lines, [] => .ok (w, lines)
  | w, lines, e :: rest => do
    let r ← phase2Step ctx w lines e.1 e.2
    phase2 ctx r.1 r.2 rest

/-- Station({}, station_id) followed by fill_station (wikidata.py lines
306-313 and 555-557): a fresh station with the item's names, site links, the
line reference and the abstract attributes. -/
def mkStation {σ : Type} (wid : Nat) (stationId : String) (lineIdx : Nat)
    (it : WDStationItem σ) : StationObj σ :=
  { id_ := stationId
    srcItem := some wid
    line := some lineIdx
    names := it.item.names.foldl (fun ns p => ainsert ns p.1 p.2) []
    siteLinks := it.item.siteLinks
    conns := []
    attrs := some it.attrs }

/-- The station-materialisation loop over one item's line ids (wikidata.py
lines 546-560).  Python evaluates line.id_ + "/" first (TypeError on a None
line id), then compute_short_station_id (whose IndexError propagates), then
the concatenation with its result (TypeError on None); the truthiness check
`if station_id` follows the concatenation, so its else branch cannot run. -/
def phase3Lines {σ : Type} (extractS : String → String → String)
    (locals : List String) (lines : List (Nat × Nat)) (wid : Nat)
    (it : WDStationItem σ) :
    World σ → List Nat → List Nat → Except PyErr (World σ × List Nat)
  | w, acc, [] => .ok (w, acc)
  | w, acc, lid :: rest =>
    match alookup lines lid with
    | none => phase3Lines extractS locals lines wid it w acc rest
    | some lineIdx =>
      match (w.lineArena.getD lineIdx {}).id_ with
      | none => .error .typeError
      | some lid_ =>
        match compute_short_station_id extractS it.item.names locals with
        | .error e => .error e
        | .ok none => .error .typeError
        | .ok (some short) =>
          let stationId := lid_ ++ "/" ++ short
          if stationId ≠ "" then
            let idx := w.stationArena.length
            let w := { w with stationArena :=
              w.stationArena ++ [mkStation wid stationId lineIdx it] }
            phase3Lines extractS locals lines wid it w (acc ++ [idx]) rest
          else
            phase3Lines extractS locals lines wid it w acc rest

/-- The intra-item transition wiring (wikidata.py lines 565-571): every
ordered pair of distinct stations of one item is connected both ways. -/
def intraWirePairs {σ : Type} (w : World σ) (idxs : List Nat) : World σ :=
  idxs.foldl (fun w s =>
    idxs.foldl (fun w o =>
      if s ≠ o then
        worldAddConn (worldAddConn w s o ConnectionType.TRANSITION) o s
          ConnectionType.TRANSITION
      else w) w) w

/-- The station-materialisation loop (wikidata.py lines 538-573), walking the
station items in insertion order and recording each item's stations. -/
def phase3 {σ : Type} (extractS : String → String → String)
    (locals : List String) (lines : List (Nat × Nat)) :
    World σ → List (Nat × List Nat) → List (Nat × WDStationItem σ) →
    Except PyErr (World σ × List (Nat × List Nat))
  | w, stationsBy, [] => .ok (w, stationsBy)
  | w, stationsBy, (wid, it) :: rest => do
    let r ← phase3Lines extractS locals lines wid it w [] it.lineIds
    let w2 := intraWirePairs r.1 r.2
    phase3 extractS locals lines w2 (ainsert stationsBy wid r.2) rest

/-- The line ids shared by two station items (set.intersection on line
575-585 of wikidata.py); only its emptiness is observed. -/
def commonLines {σ : Type} (a b : WDStationItem σ) : List Nat :=
  a.lineIds.filter (fun l => l ∈ b.lineIds)

/-- The innermost statement of the next-station wiring (wikidata.py lines
590-591): one target station receives a NEXT connection from the source
station when they hold the same Line object or the items share no line id. -/
def wireNextTgt {σ : Type} (s : Nat) (common : List Nat) (w : World σ)
    (t : Nat) : World σ :=
  if (stationAt w s).line = (stationAt w t).line ∨ common = [] then
    worldAddConn w s t ConnectionType.NEXT
  else w

/-- The station-pair wiring of one next-station reference (wikidata.py lines
586-591): a NEXT connection from every source station to every target
station whose Line is the same object, or to all of them when the items share
no line id. -/
def wireNextPair {σ : Type} (w : World σ) (srcs tgts : List Nat)
    (common : List Nat) : World σ :=
  srcs.foldl (fun w s => tgts.foldl (wireNextTgt s common) w) w

/-- One next-station reference of an item (wikidata.py lines 579-591):
references to items that were not retained are skipped, the stored line id
of the reference is not consulted. -/
def wireNextStep {σ : Type} (items : List (Nat × WDStationItem σ))
    (stationsBy : List (Nat × List Nat)) (a : Nat) (itA : WDStationItem σ)
    (w : World σ) (bc : Nat × Nat) : World σ :=
  match alookup items bc.1 with
  | none => w
  | some itB =>
    wireNextPair w ((alookup stationsBy a).getD [])
      ((alookup stationsBy bc.1).getD []) (commonLines itA itB)

/-- The next-station wiring for one retained item (wikidata.py lines
579-591). -/
def wireNextForItem {σ : Type} (items : List (Nat × WDStationItem σ))
    (stationsBy : List (Nat × List Nat)) (a : Nat) (itA : WDStationItem σ)
    (w : World σ) : World σ :=
  itA.nextConns.foldl (wireNextStep items stationsBy a itA) w

/-- The transition wiring for one retained item (wikidata.py lines 593-602):
one direction only, every station pair. -/
def wireTransForItem {σ : Type} (items : List (Nat × WDStationItem σ))
    (stationsBy : List (Nat × List Nat)) (a : Nat) (itA : WDStationItem σ)
    (w : World σ) : World σ :=
  itA.transitionConns.foldl (fun w b =>
    match alookup items b with
    | none => w
    | some _ =>
      ((alookup stationsBy a).getD []).foldl (fun w s =>
        ((alookup stationsBy b).getD []).foldl (fun w t =>
          worldAddConn w s t ConnectionType.TRANSITION) w) w) w

/-- The inter-item wiring loop (wikidata.py lines 575-602): per item, the
next-station wiring then the transition wiring. -/
def phase4 {σ : Type} (items : List (Nat × WDStationItem σ))
    (stationsBy : List (Nat × List Nat)) (w : World σ) : World σ :=
  items.foldl (fun w e =>
    wireTransForItem items stationsBy e.1 e.2
      (wireNextForItem items stationsBy e.1 e.2 w)) w

/-- Registration of one created station (wikidata.py lines 608-618): the last
system whose line dict holds the station's Line object receives the station
under its id.  recompute (line 610) only mutates the height when the
structure type is set; fill_station never sets it on crawler-created
stations, so it is the identity here. -/
def phase5Station {σ : Type} (w : World σ) (idx : Nat) : World σ :=
  let line := (stationAt w idx).line
  let lineIn : SystemObj → Bool := fun sys =>
    match line with
    | some li => decide (li ∈ sys.lines.map Prod.snd)
    | none => false
  let sysName :=
    w.map.systems.foldl (fun acc e => if lineIn e.2 then some e.1 else acc) none
  match sysName with
  | none => w
  | some name =>
    let sys := getSystem w name
    setSystem w name
      { sys with stations := ainsert sys.stations (stationAt w idx).id_ idx }

/-- The final registration loop (wikidata.py lines 606-618). -/
def phase5 {σ : Type} (stationsBy : List (Nat × List Nat)) (w : World σ)
    (items : List (Nat × WDStationItem σ)) : World σ :=
  items.foldl (fun w e =>
    ((alookup stationsBy e.1).getD []).foldl phase5Station w) w

/-- Everything a finished run of WikidataCityParser.parse leaves behind. -/
structure ParseResult (σ : Type) where
  world : World σ
  crawl : CrawlState σ
  lines : List (Nat × Nat)
  stationsBy : List (Nat × List Nat)
  deriving DecidableEq

/-- The city-item step at the top of parse (wikidata.py lines 424-427): when
the city id is truthy its item is read and the map names replaced. -/
def cityStep {σ : Type} (ctx : ParserCtx σ) (m0 : World σ) (cityId : Nat) :
    Except PyErr (World σ) :=
  if cityId ≠ 0 then do
    let it ← wikidataItemInit (ctx.fetch cityId) cityId
    pure { m0 with map := { m0.map with names := it.names } }
  else pure m0

/-- WikidataCityParser construction plus parse (wikidata.py lines 392-618):
validate the systems dict, read the city item when the city id is truthy,
run the preprocessing loop, then the four materialisation phases. -/
def parseRun {σ : Type} (ctx : ParserCtx σ) (m0 : World σ) (initIds : List Nat)
    (cityId : Nat) (fuel : Nat) : Except PyErr (ParseResult σ) := do
  let _ ← validateSystems m0 ctx.systemsDict
  let w ← cityStep ctx m0 cityId
  let st0 : CrawlState σ := { toParse := initIds.foldl setInsert [] }
  let stF ← crawlLoop ctx w.map.localLanguages fuel st0
  let r2 ← phase2 ctx w [] stF.lineItems
  let r3 ← phase3 ctx.extractS w.map.localLanguages r2.2 r2.1 [] stF.stationItems
  let w4 := phase4 stF.stationItems r3.2 r3.1
  let w5 := phase5 r3.2 w4 stF.stationItems
  .ok { world := w5, crawl := stF, lines := r2.2, stationsBy := r3.2 }

/-- The graph observation of the idempotence claim: per system, the station
id list and, for every station, its connections as (target station id,
connection type) pairs. -/
def graphOf {σ : Type} (r : ParseResult σ) :
    List (String × List (String × List (Option String × ConnectionType))) :=
  r.world.map.systems.map (fun e =>
    (e.1, e.2.stations.map (fun p =>
      (p.1, (stationAt r.world p.2).conns.map (fun c =>
        ((r.world.stationArena.get? c.1).map (fun t => t.id_), c.2))))))

/-! ## Claim C6: a retained item without names crashes materialisation -/

/-- The raw entity of a station item with one line (line 10) and no labels. -/
def c6Entity2 : RawEntity :=
  { claims := some [("P81", [{ datavalue := some { numericId := 10 } }])] }

/-- The raw entity of line 10, named M1, part of system 1. -/
def c6Entity10 : RawEntity :=
  { labels := some [("en", "M1")],
    claims := some [("P361", [{ datavalue := some { numericId := 1 } }])] }

/-- A fetch collaborator serving the two items above. -/
def c6Fetch : Nat → RawStructure := fun n =>
  if n = 2 then { entities := some [("Q2", c6Entity2)] }
  else if n = 10 then { entities := some [("Q10", c6Entity10)] }
  else { entities := none }

/-- The crawl inputs for the C6 run: system 1 is of interest. -/
def c6Ctx : ParserCtx Unit :=
  { regexM := fun _ _ => false
    fetch := c6Fetch
    mkAttrs := fun _ => .ok ()
    extractS := fun n _ => n
    extractL := fun n _ => n
    systemsDict := [(1, "metro")]
    networkUpdate := []
    limit := none }

/-- The initial map for the C6 run: one empty system named metro. -/
def c6World : World Unit :=
  { map := { systems := [("metro", {})] } }

/-- Claim C6 evidence: station item 2 is retained (its line 10 belongs to
system 1, a system of interest) but has no names, so
compute_short_station_id returns None and the concatenation
line.id_ + "/" + None raises TypeError out of parse; the station is not
dropped with a logged error, because the `if station_id` check sits after
the concatenation and its else branch is unreachable. -/
theorem C6_null_id_raises :
    parseRun c6Ctx c6World [2] 0 5 = .error .typeError := by decide


/-! ## Lemmas about connections and the next-station wiring -/

theorem connAdd_mem_self (conns : List (Nat × ConnectionType)) (tgt : Nat)
    (ty : ConnectionType) : (tgt, ty) ∈ connAdd conns tgt ty := by
  induction conns with
  | nil => simp [connAdd]
  | cons c rest ih =>
    simp only [connAdd]
    by_cases h1 : c.1 = tgt
    · rw [if_pos h1]
      by_cases h2 : c.2 ≠ ty
      · rw [if_pos h2]
        exact List.mem_cons_self _ _
      · rw [if_neg h2]
        push_neg at h2
        have hc : c = (tgt, ty) := by
          cases c
          simp_all
        rw [hc]
        exact List.mem_cons_self _ _
    · rw [if_neg h1]
      exact List.mem_cons_of_mem _ ih

theorem connAdd_mem_src (conns : List (Nat × ConnectionType))
    (tgt t' : Nat) (ty ty' : ConnectionType)
    (h : (t', ty') ∈ connAdd conns tgt ty) :
    (t', ty') ∈ conns ∨ (t' = tgt ∧ ty' = ty) := by
  induction conns with
  | nil =>
    simp [connAdd] at h
    exact Or.inr h
  | cons c rest ih =>
    simp only [connAdd] at h
    by_cases h1 : c.1 = tgt
    · rw [if_pos h1] at h
      by_cases h2 : c.2 ≠ ty
      · rw [if_pos h2] at h
        rcases List.mem_cons.mp h with h | h
        · right
          simpa using h
        · exact Or.inl (List.mem_cons_of_mem _ h)
      · rw [if_neg h2] at h
        exact Or.inl h
    · rw [if_neg h1] at h
      rcases List.mem_cons.mp h with h | h
      · exact Or.inl (h ▸ List.mem_cons_self _ _)
      · rcases ih h with h | h
        · exact Or.inl (List.mem_cons_of_mem _ h)
        · exact Or.inr h

theorem connAdd_next_mono (conns : List (Nat × ConnectionType)) (tgt t2 : Nat)
    (h : (tgt, ConnectionType.NEXT) ∈ conns) :
    (tgt, ConnectionType.NEXT) ∈ connAdd conns t2 ConnectionType.NEXT := by
  induction conns with
  | nil => simp at h
  | cons c rest ih =>
    simp only [connAdd]
    rcases List.mem_cons.mp h with hc | hc
    · by_cases h1 : c.1 = t2
      · rw [if_pos h1]
        by_cases h2 : c.2 ≠ ConnectionType.NEXT
        · exact absurd (by rw [← hc]) h2
        · rw [if_neg h2, ← hc]
          exact List.mem_cons_self _ _
      · rw [if_neg h1, ← hc]
        exact List.mem_cons_self _ _
    · by_cases h1 : c.1 = t2
      · rw [if_pos h1]
        by_cases h2 : c.2 ≠ ConnectionType.NEXT
        · rw [if_pos h2]
          exact List.mem_cons_of_mem _ hc
        · rw [if_neg h2]
          exact List.mem_cons_of_mem _ hc
      · rw [if_neg h1]
        exact List.mem_cons_of_mem _ (ih hc)

theorem stationAt_eq_getElem {σ : Type} (w : World σ) (idx : Nat) :
    stationAt w idx = (w.stationArena[idx]?).getD {} := by
  simp [stationAt, List.getD_eq_getElem?_getD]

theorem addConn_length {σ : Type} (w : World σ) (src tgt : Nat)
    (ty : ConnectionType) :
    (worldAddConn w src tgt ty).stationArena.length = w.stationArena.length := by
  simp [worldAddConn, List.length_modify]

theorem stationAt_addConn_ne {σ : Type} (w : World σ) (src tgt idx : Nat)
    (ty : ConnectionType) (h : idx ≠ src) :
    stationAt (worldAddConn w src tgt ty) idx = stationAt w idx := by
  rw [stationAt_eq_getElem, stationAt_eq_getElem]
  simp only [worldAddConn]
  rw [List.getElem?_modify]
  cases w.stationArena[idx]? with
  | none => rfl
  | some s => simp [Ne.symm h]

theorem stationAt_addConn_line {σ : Type} (w : World σ) (src tgt idx : Nat)
    (ty : ConnectionType) :
    (stationAt (worldAddConn w src tgt ty) idx).line = (stationAt w idx).line := by
  rw [stationAt_eq_getElem, stationAt_eq_getElem]
  simp only [worldAddConn]
  rw [List.getElem?_modify]
  cases w.stationArena[idx]? with
  | none => rfl
  | some s =>
    by_cases h : src = idx <;> simp [h]

theorem stationAt_addConn_conns_self {σ : Type} (w : World σ) (src tgt : Nat)
    (ty : ConnectionType) (h : src < w.stationArena.length) :
    (stationAt (worldAddConn w src tgt ty) src).conns =
      connAdd (stationAt w src).conns tgt ty := by
  rw [stationAt_eq_getElem, stationAt_eq_getElem]
  simp only [worldAddConn]
  rw [List.getElem?_modify]
  cases hg : w.stationArena[src]? with
  | none =>
    rw [List.getElem?_eq_none_iff] at hg
    omega
  | some s => simp

theorem stationAt_addConn_conns_sound {σ : Type} (w : World σ)
    (src tgt idx t' : Nat) (ty ty' : ConnectionType)
    (h : (t', ty') ∈ (stationAt (worldAddConn w src tgt ty) idx).conns) :
    (t', ty') ∈ (stationAt w idx).conns ∨ (idx = src ∧ t' = tgt ∧ ty' = ty) := by
  by_cases he : idx = src
  · subst he
    by_cases hlt : idx < w.stationArena.length
    · rw [stationAt_addConn_conns_self w idx tgt ty hlt] at h
      rcases connAdd_mem_src _ _ _ _ _ h with h | h
      · exact Or.inl h
      · exact Or.inr ⟨rfl, h⟩
    · rw [stationAt_eq_getElem] at h
      simp only [worldAddConn] at h
      rw [List.getElem?_modify] at h
      rw [stationAt_eq_getElem]
      cases hg : w.stationArena[idx]? with
      | none => rw [hg] at h; simp at h
      | some s =>
        rw [List.getElem?_eq_none_iff.mpr (by omega)] at hg
        cases hg
  · rw [stationAt_addConn_ne w src tgt idx ty he] at h
    exact Or.inl h

theorem stationAt_addConn_next_mono {σ : Type} (w : World σ)
    (src tgt idx t' : Nat)
    (h : (t', ConnectionType.NEXT) ∈ (stationAt w idx).conns) :
    (t', ConnectionType.NEXT) ∈
      (stationAt (worldAddConn w src tgt ConnectionType.NEXT) idx).conns := by
  by_cases he : idx = src
  · subst he
    by_cases hlt : idx < w.stationArena.length
    · rw [stationAt_addConn_conns_self w idx tgt _ hlt]
      exact connAdd_next_mono _ _ _ h
    · have hnone : w.stationArena[idx]? = none :=
        List.getElem?_eq_none_iff.mpr (by omega)
      have heq : stationAt (worldAddConn w idx tgt ConnectionType.NEXT) idx =
          stationAt w idx := by
        rw [stationAt_eq_getElem, stationAt_eq_getElem]
        simp only [worldAddConn]
        rw [List.getElem?_modify, hnone]
        rfl
      rw [heq]
      exact h
  · rw [stationAt_addConn_ne w src tgt idx _ he]
    exact h


theorem foldl_world_pres {σ γ β : Type} (g : World σ → γ)
    (f : World σ → β → World σ) (hf : ∀ w x, g (f w x) = g w) :
    ∀ (l : List β) (w : World σ), g (l.foldl f w) = g w
  | [], _ => rfl
  | x :: rest, w => by
    rw [List.foldl_cons, foldl_world_pres g f hf rest (f w x), hf]

theorem wireNextTgt_line {σ : Type} (s : Nat) (common : List Nat)
    (w : World σ) (t idx : Nat) :
    (stationAt (wireNextTgt s common w t) idx).line = (stationAt w idx).line := by
  unfold wireNextTgt
  split
  · exact stationAt_addConn_line w s t idx _
  · rfl

theorem wireNextTgt_length {σ : Type} (s : Nat) (common : List Nat)
    (w : World σ) (t : Nat) :
    (wireNextTgt s common w t).stationArena.length = w.stationArena.length := by
  unfold wireNextTgt
  split
  · exact addConn_length w s t _
  · rfl

theorem wireNextTgt_ne {σ : Type} (s : Nat) (common : List Nat)
    (w : World σ) (t idx : Nat) (h : idx ≠ s) :
    stationAt (wireNextTgt s common w t) idx = stationAt w idx := by
  unfold wireNextTgt
  split
  · exact stationAt_addConn_ne w s t idx _ h
  · rfl

theorem wireNextTgt_next_mono {σ : Type} (s : Nat) (common : List Nat)
    (w : World σ) (t idx t' : Nat)
    (h : (t', ConnectionType.NEXT) ∈ (stationAt w idx).conns) :
    (t', ConnectionType.NEXT) ∈ (stationAt (wireNextTgt s common w t) idx).conns := by
  unfold wireNextTgt
  split
  · exact stationAt_addConn_next_mono w s t idx t' h
  · exact h

theorem innerFold_line {σ : Type} (s : Nat) (common : List Nat)
    (tgts : List Nat) (w : World σ) (idx : Nat) :
    (stationAt (tgts.foldl (wireNextTgt s common) w) idx).line =
      (stationAt w idx).line :=
  foldl_world_pres (fun w => (stationAt w idx).line) _
    (fun w t => wireNextTgt_line s common w t idx) tgts w

theorem innerFold_length {σ : Type} (s : Nat) (common : List Nat)
    (tgts : List Nat) (w : World σ) :
    (tgts.foldl (wireNextTgt s common) w).stationArena.length =
      w.stationArena.length :=
  foldl_world_pres (fun w => w.stationArena.length) _
    (fun w t => wireNextTgt_length s common w t) tgts w

theorem innerFold_ne {σ : Type} (s : Nat) (common : List Nat)
    (tgts : List Nat) (w : World σ) (idx : Nat) (h : idx ≠ s) :
    stationAt (tgts.foldl (wireNextTgt s common) w) idx = stationAt w idx :=
  foldl_world_pres (fun w => stationAt w idx) _
    (fun w t => wireNextTgt_ne s common w t idx h) tgts w

theorem innerFold_next_mono {σ : Type} (s : Nat) (common : List Nat) :
    ∀ (tgts : List Nat) (w : World σ) (idx t' : Nat),
    (t', ConnectionType.NEXT) ∈ (stationAt w idx).conns →
    (t', ConnectionType.NEXT) ∈
      (stationAt (tgts.foldl (wireNextTgt s common) w) idx).conns
  | [], _, _, _, h => h
  | t :: rest, w, idx, t', h => by
    rw [List.foldl_cons]
    exact innerFold_next_mono s common rest _ idx t'
      (wireNextTgt_next_mono s common w t idx t' h)

theorem innerFold_sound {σ : Type} (s : Nat) (common : List Nat) :
    ∀ (tgts : List Nat) (w : World σ) (idx t' : Nat),
    (t', ConnectionType.NEXT) ∈
      (stationAt (tgts.foldl (wireNextTgt s common) w) idx).conns →
    (t', ConnectionType.NEXT) ∈ (stationAt w idx).conns ∨
      (idx = s ∧ t' ∈ tgts ∧
        ((stationAt w idx).line = (stationAt w t').line ∨ common = []))
  | [], _, _, _, h => Or.inl h
  | t :: rest, w, idx, t', h => by
    rw [List.foldl_cons] at h
    rcases innerFold_sound s common rest _ idx t' h with h | ⟨he, ht, hc⟩
    · unfold wireNextTgt at h
      split at h
      · rcases stationAt_addConn_conns_sound w s t idx t' _ _ h with h | ⟨he, ht, -⟩
        · exact Or.inl h
        · subst he
          subst ht
          rename_i hcond
          exact Or.inr ⟨rfl, List.mem_cons_self _ _, hcond⟩
      · exact Or.inl h
    · rw [wireNextTgt_line s common w t idx, wireNextTgt_line s common w t t'] at hc
      exact Or.inr ⟨he, List.mem_cons_of_mem _ ht, hc⟩

theorem innerFold_complete {σ : Type} (s : Nat) (common : List Nat) :
    ∀ (tgts : List Nat) (w : World σ) (t : Nat),
    s < w.stationArena.length → t ∈ tgts →
    ((stationAt w s).line = (stationAt w t).line ∨ common = []) →
    (t, ConnectionType.NEXT) ∈
      (stationAt (tgts.foldl (wireNextTgt s common) w) s).conns
  | [], _, _, _, ht, _ => by simp at ht
  | t0 :: rest, w, t, hlt, ht, hcond => by
    rw [List.foldl_cons]
    rcases List.mem_cons.mp ht with rfl | ht
    · apply innerFold_next_mono
      have hstep : wireNextTgt s common w t = worldAddConn w s t ConnectionType.NEXT := by
        unfold wireNextTgt
        rw [if_pos hcond]
      rw [hstep, stationAt_addConn_conns_self w s t _ hlt]
      exact connAdd_mem_self _ t _
    · apply innerFold_complete s common rest _ t
      · rw [wireNextTgt_length]
        exact hlt
      · exact ht
      · rw [wireNextTgt_line s common w t0 s, wireNextTgt_line s common w t0 t]
        exact hcond

theorem wireNextPair_line {σ : Type} (srcs tgts common : List Nat) :
    ∀ (w : World σ) (idx : Nat),
    (stationAt (wireNextPair w srcs tgts common) idx).line =
      (stationAt w idx).line := by
  intro w idx
  exact foldl_world_pres (fun w => (stationAt w idx).line) _
    (fun w s => innerFold_line s common tgts w idx) srcs w

theorem wireNextPair_length {σ : Type} (srcs tgts common : List Nat)
    (w : World σ) :
    (wireNextPair w srcs tgts common).stationArena.length =
      w.stationArena.length :=
  foldl_world_pres (fun w => w.stationArena.length) _
    (fun w s => innerFold_length s common tgts w) srcs w

theorem wireNextPair_ne {σ : Type} (srcs tgts common : List Nat) :
    ∀ (w : World σ) (idx : Nat), idx ∉ srcs →
    stationAt (wireNextPair w srcs tgts common) idx = stationAt w idx := by
  induction srcs with
  | nil => intro w idx _; rfl
  | cons s rest ih =>
    intro w idx hns
    unfold wireNextPair at ih ⊢
    rw [List.foldl_cons]
    rw [ih _ idx (fun hm => hns (List.mem_cons_of_mem _ hm))]
    exact innerFold_ne s common tgts w idx (fun he => hns (he ▸ List.mem_cons_self _ _))

theorem wireNextPair_next_mono {σ : Type} (srcs tgts common : List Nat) :
    ∀ (w : World σ) (idx t' : Nat),
    (t', ConnectionType.NEXT) ∈ (stationAt w idx).conns →
    (t', ConnectionType.NEXT) ∈
      (stationAt (wireNextPair w srcs tgts common) idx).conns := by
  induction srcs with
  | nil => intro _ _ _ h; exact h
  | cons s rest ih =>
    intro w idx t' h
    unfold wireNextPair at ih ⊢
    rw [List.foldl_cons]
    exact ih _ idx t' (innerFold_next_mono s common tgts w idx t' h)

theorem wireNextPair_sound {σ : Type} (srcs tgts common : List Nat) :
    ∀ (w : World σ) (idx t' : Nat),
    (t', ConnectionType.NEXT) ∈
      (stationAt (wireNextPair w srcs tgts common) idx).conns →
    (t', ConnectionType.NEXT) ∈ (stationAt w idx).conns ∨
      (idx ∈ srcs ∧ t' ∈ tgts ∧
        ((stationAt w idx).line = (stationAt w t').line ∨ common = [])) := by
  induction srcs with
  | nil => intro _ _ _ h; exact Or.inl h
  | cons s rest ih =>
    intro w idx t' h
    unfold wireNextPair at ih h
    rw [List.foldl_cons] at h
    rcases ih _ idx t' h with h | ⟨hm, ht, hc⟩
    · rcases innerFold_sound s common tgts w idx t' h with h | ⟨he, ht, hc⟩
      · exact Or.inl h
      · exact Or.inr ⟨he ▸ List.mem_cons_self _ _, ht, hc⟩
    · rw [innerFold_line s common tgts w idx, innerFold_line s common tgts w t'] at hc
      exact Or.inr ⟨List.mem_cons_of_mem _ hm, ht, hc⟩

theorem wireNextPair_complete {σ : Type} (srcs tgts common : List Nat) :
    ∀ (w : World σ) (s t : Nat), s ∈ srcs → s < w.stationArena.length →
    t ∈ tgts →
    ((stationAt w s).line = (stationAt w t).line ∨ common = []) →
    (t, ConnectionType.NEXT) ∈
      (stationAt (wireNextPair w srcs tgts common) s).conns := by
  induction srcs with
  | nil => intro _ _ _ hs; simp at hs
  | cons s0 rest ih =>
    intro w s t hs hlt ht hcond
    unfold wireNextPair at ih ⊢
    rw [List.foldl_cons]
    rcases List.mem_cons.mp hs with rfl | hs
    · exact wireNextPair_next_mono rest tgts common _ s t
        (innerFold_complete s common tgts w t hlt ht hcond)
    · apply ih _ s t hs
      · rw [innerFold_length]
        exact hlt
      · exact ht
      · rw [innerFold_line s0 common tgts w s, innerFold_line s0 common tgts w t]
        exact hcond


theorem wireNextStep_line {σ : Type} (items : List (Nat × WDStationItem σ))
    (stationsBy : List (Nat × List Nat)) (a : Nat) (itA : WDStationItem σ)
    (w : World σ) (bc : Nat × Nat) (idx : Nat) :
    (stationAt (wireNextStep items stationsBy a itA w bc) idx).line =
      (stationAt w idx).line := by
  unfold wireNextStep
  cases alookup items bc.1 with
  | none => rfl
  | some itB => exact wireNextPair_line _ _ _ w idx

theorem wireNextStep_length {σ : Type} (items : List (Nat × WDStationItem σ))
    (stationsBy : List (Nat × List Nat)) (a : Nat) (itA : WDStationItem σ)
    (w : World σ) (bc : Nat × Nat) :
    (wireNextStep items stationsBy a itA w bc).stationArena.length =
      w.stationArena.length := by
  unfold wireNextStep
  cases alookup items bc.1 with
  | none => rfl
  | some itB => exact wireNextPair_length _ _ _ w

theorem wireNextStep_ne {σ : Type} (items : List (Nat × WDStationItem σ))
    (stationsBy : List (Nat × List Nat)) (a : Nat) (itA : WDStationItem σ)
    (w : World σ) (bc : Nat × Nat) (idx : Nat)
    (h : idx ∉ (alookup stationsBy a).getD []) :
    stationAt (wireNextStep items stationsBy a itA w bc) idx = stationAt w idx := by
  unfold wireNextStep
  cases alookup items bc.1 with
  | none => rfl
  | some itB => exact wireNextPair_ne _ _ _ w idx h

theorem wireNextStep_next_mono {σ : Type} (items : List (Nat × WDStationItem σ))
    (stationsBy : List (Nat × List Nat)) (a : Nat) (itA : WDStationItem σ)
    (w : World σ) (bc : Nat × Nat) (idx t' : Nat)
    (h : (t', ConnectionType.NEXT) ∈ (stationAt w idx).conns) :
    (t', ConnectionType.NEXT) ∈
      (stationAt (wireNextStep items stationsBy a itA w bc) idx).conns := by
  unfold wireNextStep
  cases alookup items bc.1 with
  | none => exact h
  | some itB => exact wireNextPair_next_mono _ _ _ w idx t' h

theorem wireNextStep_sound {σ : Type} (items : List (Nat × WDStationItem σ))
    (stationsBy : List (Nat × List Nat)) (a : Nat) (itA : WDStationItem σ)
    (w : World σ) (bc : Nat × Nat) (idx t' : Nat)
    (h : (t', ConnectionType.NEXT) ∈
      (stationAt (wireNextStep items stationsBy a itA w bc) idx).conns) :
    (t', ConnectionType.NEXT) ∈ (stationAt w idx).conns ∨
      ∃ itB, alookup items bc.1 = some itB ∧
        idx ∈ (alookup stationsBy a).getD [] ∧
        t' ∈ (alookup stationsBy bc.1).getD [] ∧
        ((stationAt w idx).line = (stationAt w t').line ∨
          commonLines itA itB = []) := by
  revert h
  unfold wireNextStep
  cases hb : alookup items bc.1 with
  | none => exact fun h => Or.inl h
  | some itB =>
    intro h
    rcases wireNextPair_sound _ _ _ w idx t' h with h | ⟨hm, ht, hc⟩
    · exact Or.inl h
    · exact Or.inr ⟨itB, rfl, hm, ht, hc⟩

theorem wireNextForItem_line {σ : Type} (items : List (Nat × WDStationItem σ))
    (stationsBy : List (Nat × List Nat)) (a : Nat) (itA : WDStationItem σ)
    (w : World σ) (idx : Nat) :
    (stationAt (wireNextForItem items stationsBy a itA w) idx).line =
      (stationAt w idx).line :=
  foldl_world_pres (fun w => (stationAt w idx).line) _
    (fun w bc => wireNextStep_line items stationsBy a itA w bc idx)
    itA.nextConns w

theorem wireNextForItem_length {σ : Type} (items : List (Nat × WDStationItem σ))
    (stationsBy : List (Nat × List Nat)) (a : Nat) (itA : WDStationItem σ)
    (w : World σ) :
    (wireNextForItem items stationsBy a itA w).stationArena.length =
      w.stationArena.length :=
  foldl_world_pres (fun w => w.stationArena.length) _
    (fun w bc => wireNextStep_length items stationsBy a itA w bc)
    itA.nextConns w

theorem wireNextFold_ne {σ : Type} (items : List (Nat × WDStationItem σ))
    (stationsBy : List (Nat × List Nat)) (a : Nat) (itA : WDStationItem σ)
    (idx : Nat) (h : idx ∉ (alookup stationsBy a).getD []) :
    ∀ (cs : List (Nat × Nat)) (w : World σ),
    stationAt (cs.foldl (wireNextStep items stationsBy a itA) w) idx =
      stationAt w idx
  | [], _ => rfl
  | bc :: rest, w => by
    rw [List.foldl_cons, wireNextFold_ne items stationsBy a itA idx h rest _,
      wireNextStep_ne items stationsBy a itA w bc idx h]

theorem wireNextFold_next_mono {σ : Type} (items : List (Nat × WDStationItem σ))
    (stationsBy : List (Nat × List Nat)) (a : Nat) (itA : WDStationItem σ)
    (idx t' : Nat) :
    ∀ (cs : List (Nat × Nat)) (w : World σ),
    (t', ConnectionType.NEXT) ∈ (stationAt w idx).conns →
    (t', ConnectionType.NEXT) ∈
      (stationAt (cs.foldl (wireNextStep items stationsBy a itA) w) idx).conns
  | [], _, h => h
  | bc :: rest, w, h => by
    rw [List.foldl_cons]
    exact wireNextFold_next_mono items stationsBy a itA idx t' rest _
      (wireNextStep_next_mono items stationsBy a itA w bc idx t' h)

theorem wireNextFold_sound {σ : Type} (items : List (Nat × WDStationItem σ))
    (stationsBy : List (Nat × List Nat)) (a : Nat) (itA : WDStationItem σ)
    (idx t' : Nat) :
    ∀ (cs : List (Nat × Nat)) (w : World σ),
    (t', ConnectionType.NEXT) ∈
      (stationAt (cs.foldl (wireNextStep items stationsBy a itA) w) idx).conns →
    (t', ConnectionType.NEXT) ∈ (stationAt w idx).conns ∨
      ∃ b lw itB, (b, lw) ∈ cs ∧ alookup items b = some itB ∧
        idx ∈ (alookup stationsBy a).getD [] ∧
        t' ∈ (alookup stationsBy b).getD [] ∧
        ((stationAt w idx).line = (stationAt w t').line ∨
          commonLines itA itB = [])
  | [], _, h => Or.inl h
  | bc :: rest, w, h => by
    rw [List.foldl_cons] at h
    rcases wireNextFold_sound items stationsBy a itA idx t' rest _ h with
      h | ⟨b, lw, itB, hm, hl, hi, ht, hc⟩
    · rcases wireNextStep_sound items stationsBy a itA w bc idx t' h with
        h | ⟨itB, hl, hi, ht, hc⟩
      · exact Or.inl h
      · exact Or.inr ⟨bc.1, bc.2, itB, List.mem_cons_self _ _, hl, hi, ht, hc⟩
    · rw [wireNextStep_line items stationsBy a itA w bc idx,
        wireNextStep_line items stationsBy a itA w bc t'] at hc
      exact Or.inr ⟨b, lw, itB, List.mem_cons_of_mem _ hm, hl, hi, ht, hc⟩

theorem wireNextFold_complete {σ : Type} (items : List (Nat × WDStationItem σ))
    (stationsBy : List (Nat × List Nat)) (a : Nat) (itA : WDStationItem σ)
    (b : Nat) (itB : WDStationItem σ) (hB : alookup items b = some itB) :
    ∀ (cs : List (Nat × Nat)) (w : World σ) (lw idx t : Nat),
    (b, lw) ∈ cs →
    idx ∈ (alookup stationsBy a).getD [] → idx < w.stationArena.length →
    t ∈ (alookup stationsBy b).getD [] →
    ((stationAt w idx).line = (stationAt w t).line ∨ commonLines itA itB = []) →
    (t, ConnectionType.NEXT) ∈
      (stationAt (cs.foldl (wireNextStep items stationsBy a itA) w) idx).conns
  | [], _, _, _, _, hm, _, _, _, _ => by simp at hm
  | bc :: rest, w, lw, idx, t, hm, hi, hlt, ht, hc => by
    rw [List.foldl_cons]
    rcases List.mem_cons.mp hm with heq | hm
    · apply wireNextFold_next_mono items stationsBy a itA idx t rest
      have hb1 : bc.1 = b := by rw [← heq]
      unfold wireNextStep
      rw [hb1, hB]
      exact wireNextPair_complete _ _ _ w idx t hi hlt ht hc
    · apply wireNextFold_complete items stationsBy a itA b itB hB rest _ lw idx t hm hi
      · rw [wireNextStep_length]
        exact hlt
      · exact ht
      · rw [wireNextStep_line items stationsBy a itA w bc idx,
          wireNextStep_line items stationsBy a itA w bc t]
        exact hc

/-- Claim C3. Phase-4 NEXT wiring: for a retained item and each of its
next-station references to another retained item, a NEXT connection is added
from every station of the referencing item to exactly those stations of the
referenced item that hold the same Line object when the items share a line
id, and to all of them when they share none; the edge goes only in the
direction of the source claim: stations outside the referencing item keep
their connection lists unchanged (no automatic symmetrisation). -/
theorem C3_next_wiring {σ : Type} (items : List (Nat × WDStationItem σ))
    (stationsBy : List (Nat × List Nat)) (a : Nat) (itA : WDStationItem σ)
    (w : World σ) :
    (∀ idx, idx ∉ (alookup stationsBy a).getD [] →
      stationAt (wireNextForItem items stationsBy a itA w) idx = stationAt w idx)
    ∧ (∀ idx t',
        (t', ConnectionType.NEXT) ∈
          (stationAt (wireNextForItem items stationsBy a itA w) idx).conns →
        (t', ConnectionType.NEXT) ∈ (stationAt w idx).conns ∨
        ∃ b lw itB, (b, lw) ∈ itA.nextConns ∧ alookup items b = some itB ∧
          idx ∈ (alookup stationsBy a).getD [] ∧
          t' ∈ (alookup stationsBy b).getD [] ∧
          ((stationAt w idx).line = (stationAt w t').line ∨
            commonLines itA itB = []))
    ∧ (∀ b lw itB, (b, lw) ∈ itA.nextConns → alookup items b = some itB →
        ∀ idx, idx ∈ (alookup stationsBy a).getD [] →
          idx < w.stationArena.length →
        ∀ t, t ∈ (alookup stationsBy b).getD [] →
        ((stationAt w idx).line = (stationAt w t).line ∨
          commonLines itA itB = []) →
        (t, ConnectionType.NEXT) ∈
          (stationAt (wireNextForItem items stationsBy a itA w) idx).conns) := by
  refine ⟨?_, ?_, ?_⟩
  · intro idx h
    exact wireNextFold_ne items stationsBy a itA idx h itA.nextConns w
  · intro idx t' h
    exact wireNextFold_sound items stationsBy a itA idx t' itA.nextConns w h
  · intro b lw itB hm hB idx hi hlt t ht hc
    exact wireNextFold_complete items stationsBy a itA b itB hB itA.nextConns w
      lw idx t hm hi hlt ht hc

/-- A minimal station item for the C3 witness. -/
def c3Item (lineIds : List Nat) (nextConns : List (Nat × Nat)) :
    WDStationItem Unit :=
  { item := { wikidataId := 0, entity := {}, claims := [], names := [],
              descriptions := [], aliases := [], siteLinks := [] }
    structureType := none
    systemIds := []
    lineIds := lineIds
    nextConns := nextConns
    transitionConns := []
    attrs := () }

/-- The two-item world of the C3 witness: item 1 references item 2, both
share line 5, and their stations 0 and 1 hold the same Line object. -/
def c3World : World Unit :=
  { stationArena := [{ id_ := "m/x", line := some 0 }, { id_ := "m/y", line := some 0 }] }

/-- The item table of the C3 witness. -/
def c3Items : List (Nat × WDStationItem Unit) :=
  [(1, c3Item [5] [(2, 0)]), (2, c3Item [5] [])]

/-- Claim C3 witness: wiring item 1 adds the NEXT edge from its station 0 to
station 1 of item 2 (same Line, shared line id), and leaves station 1's own
connection list untouched. -/
theorem C3_next_wiring_witness :
    (1, ConnectionType.NEXT) ∈
      (stationAt (wireNextForItem c3Items [(1, [0]), (2, [1])] 1
        (c3Item [5] [(2, 0)]) c3World) 0).conns
    ∧ stationAt (wireNextForItem c3Items [(1, [0]), (2, [1])] 1
        (c3Item [5] [(2, 0)]) c3World) 1 = stationAt c3World 1 :=
  ⟨(C3_next_wiring c3Items [(1, [0]), (2, [1])] 1 (c3Item [5] [(2, 0)])
      c3World).2.2 2 0 (c3Item [5] []) (by decide) (by decide) 0 (by decide)
      (by decide) 1 (by decide) (by decide),
   (C3_next_wiring c3Items [(1, [0]), (2, [1])] 1 (c3Item [5] [(2, 0)])
      c3World).1 1 (by decide)⟩


/-! ## Lemmas for the interest-filtering invariant -/

theorem pyBind_ok {α β : Type} (a : α) (f : α → Except PyErr β) :
    (Except.ok a >>= f : Except PyErr β) = f a := rfl

theorem pyBind_err {α β : Type} (e : PyErr) (f : α → Except PyErr β) :
    (Except.error e >>= f : Except PyErr β) = Except.error e := rfl

theorem alookup_ainsert_ne {κ α : Type} [DecidableEq κ] (k k' : κ) (v : α)
    (h : k' ≠ k) : ∀ l : List (κ × α), alookup (ainsert l k v) k' = alookup l k'
  | [] => by
    have hd : (decide (k = k')) = false := decide_eq_false (fun he => h he.symm)
    simp [ainsert, alookup, List.find?, hd]
  | p :: rest => by
    by_cases hp : p.1 = k
    · have h1 : (decide (k = k')) = false := decide_eq_false (fun he => h he.symm)
      have h2 : (decide (p.1 = k')) = false :=
        decide_eq_false (fun he => h (he.symm.trans hp))
      simp only [ainsert, if_pos hp, alookup, List.find?, h1, h2]
    · have hrec := alookup_ainsert_ne k k' v h rest
      simp only [ainsert, if_neg hp, alookup, List.find?]
      cases hd : decide (p.1 = k') with
      | true => rfl
      | false => exact hrec

theorem ainsert_mem {κ α : Type} [DecidableEq κ] (k : κ) (v : α) :
    ∀ (l : List (κ × α)) (e : κ × α), e ∈ ainsert l k v → e ∈ l ∨ e = (k, v)
  | [], e, h => by simpa [ainsert] using h
  | p :: rest, e, h => by
    simp only [ainsert] at h
    by_cases hp : p.1 = k
    · rw [if_pos hp] at h
      rcases List.mem_cons.mp h with h | h
      · exact Or.inr h
      · exact Or.inl (List.mem_cons_of_mem _ h)
    · rw [if_neg hp] at h
      rcases List.mem_cons.mp h with h | h
      · exact Or.inl (h ▸ List.mem_cons_self _ _)
      · rcases ainsert_mem k v rest e h with h | h
        · exact Or.inl (List.mem_cons_of_mem _ h)
        · exact Or.inr h

theorem alookup_mem {κ α : Type} [DecidableEq κ] {l : List (κ × α)} {k : κ}
    {v : α} (h : alookup l k = some v) : (k, v) ∈ l := by
  unfold alookup at h
  cases hf : l.find? (fun p => p.1 = k) with
  | none => rw [hf] at h; cases h
  | some p =>
    rw [hf] at h
    have hm := List.mem_of_find?_eq_some hf
    have hk : p.1 = k := by
      have := List.find?_some hf
      simpa using this
    have hv : p.2 = v := Option.some.inj h
    have : p = (k, v) := by
      cases p
      simp_all
    exact this ▸ hm

theorem alookup_none_not_mem {κ α : Type} [DecidableEq κ] {l : List (κ × α)}
    {k : κ} (h : alookup l k = none) : ∀ v, (k, v) ∉ l := by
  intro v hm
  unfold alookup at h
  cases hf : l.find? (fun p => p.1 = k) with
  | some p => rw [hf] at h; cases h
  | none =>
    rw [List.find?_eq_none] at hf
    exact absurd (by simp : (decide ((k, v).1 = k)) = true)
      (by simpa using hf (k, v) hm)

theorem setInsert_mem {α : Type} [DecidableEq α] (l : List α) (a x : α)
    (h : x ∈ setInsert l a) : x ∈ l ∨ x = a := by
  unfold setInsert at h
  by_cases ha : a ∈ l
  · rw [if_pos ha] at h
    exact Or.inl h
  · rw [if_neg ha] at h
    rcases List.mem_append.mp h with h | h
    · exact Or.inl h
    · exact Or.inr (List.mem_singleton.mp h)

theorem map_modify {α β : Type} (f : α → α) (g : α → β)
    (hfg : ∀ x, g (f x) = g x) (n : Nat) (l : List α) :
    (List.modify f n l).map g = l.map g := by
  apply List.ext_getElem?
  intro m
  rw [List.getElem?_map, List.getElem?_map, List.getElem?_modify]
  cases l[m]? with
  | none => rfl
  | some a => by_cases h : n = m <;> simp [h, hfg]

/-- The source-item projection of the station arena. -/
def srcItemsOf {σ : Type} (w : World σ) : List (Option Nat) :=
  w.stationArena.map (fun s => s.srcItem)

theorem srcItemsOf_addConn {σ : Type} (w : World σ) (s t : Nat)
    (ty : ConnectionType) : srcItemsOf (worldAddConn w s t ty) = srcItemsOf w := by
  unfold srcItemsOf worldAddConn
  exact map_modify (fun s => { s with conns := connAdd s.conns t ty })
    (fun s => s.srcItem) (fun x => rfl) s w.stationArena

theorem networkUpdateLoop_of_init {σ : Type} (ctx : ParserCtx σ) (wid : Nat)
    (item : WDStationItem σ)
    (hinit : stationItemInit ctx.mkAttrs (ctx.fetch wid) wid = .ok item) :
    ∀ ps : List String, networkUpdateLoop ctx wid item ps = .ok item
  | [] => rfl
  | p :: rest => by
    simp only [networkUpdateLoop]
    split
    · rw [hinit, pyBind_ok]
      exact networkUpdateLoop_of_init ctx wid item hinit rest
    · exact networkUpdateLoop_of_init ctx wid item hinit rest

/-- The line items are consistent: every recorded line item is what
lineItemInit yields on its id. -/
def LineConsistent {σ : Type} (ctx : ParserCtx σ) (locals : List String)
    (st : CrawlState σ) : Prop :=
  ∀ e ∈ st.lineItems,
    lineItemInit ctx.extractL (ctx.fetch e.1) e.1 (some locals) = .ok e.2

theorem fetchLineItems_spec {σ : Type} (ctx : ParserCtx σ) (locals : List String) :
    ∀ (lids : List Nat) (st st2 : CrawlState σ),
    fetchLineItems ctx locals st lids = .ok st2 →
    st2.stationItems = st.stationItems ∧
      (LineConsistent ctx locals st → LineConsistent ctx locals st2)
  | [], st, st2, h => by
    cases h
    exact ⟨rfl, fun h => h⟩
  | lid :: rest, st, st2, h => by
    simp only [fetchLineItems] at h
    by_cases hmem : lid ∈ st.parsedLines
    · rw [if_pos hmem] at h
      exact fetchLineItems_spec ctx locals rest st st2 h
    · rw [if_neg hmem] at h
      cases hli : lineItemInit ctx.extractL (ctx.fetch lid) lid (some locals) with
      | error e => rw [hli, pyBind_err] at h; cases h
      | ok li =>
        rw [hli, pyBind_ok] at h
        obtain ⟨h1, h2⟩ := fetchLineItems_spec ctx locals rest _ st2 h
        refine ⟨h1, fun hc => h2 ?_⟩
        intro e he
        rcases ainsert_mem lid li _ e he with he | he
        · exact hc e he
        · rw [he]
          exact hli

theorem resolveSystemsGo_spec (lineItems : List (Nat × WDLineItem)) :
    ∀ (lids : List Nat) (acc sys : List (Option Nat)),
    resolveSystemsGo lineItems lids acc = .ok sys →
    ∀ x ∈ sys, x ∈ acc ∨
      ∃ lid ∈ lids, ∃ li, alookup lineItems lid = some li ∧ x = li.systemId
  | [], acc, sys, h => by
    cases h
    exact fun x hx => Or.inl hx
  | lid :: rest, acc, sys, h => by
    simp only [resolveSystemsGo] at h
    cases hl : alookup lineItems lid with
    | none => rw [hl] at h; cases h
    | some li =>
      rw [hl] at h
      intro x hx
      rcases resolveSystemsGo_spec lineItems rest _ sys h x hx with hx | ⟨l2, hl2, li2, ha, he⟩
      · rcases setInsert_mem acc li.systemId x hx with hx | hx
        · exact Or.inl hx
        · exact Or.inr ⟨lid, List.mem_cons_self _ _, li, hl, hx⟩
      · exact Or.inr ⟨l2, List.mem_cons_of_mem _ hl2, li2, ha, he⟩

theorem interest_false {σ : Type} (ctx : ParserCtx σ) (it : WDStationItem σ)
    (h1 : ∀ s ∈ it.systemIds, ∀ n, s = some n → alookup ctx.systemsDict n = none)
    (h2 : ∀ l ∈ it.lineIds, alookup ctx.systemsDict l = none) :
    isSystemOfInterest ctx it = false := by
  unfold isSystemOfInterest
  rw [Bool.or_eq_false_iff]
  constructor
  · rw [List.any_eq_false]
    intro s hs
    cases s with
    | none => simp
    | some n => simp [h1 (some n) hs n rfl]
  · rw [List.any_eq_false]
    intro l hl
    simp [h2 l hl]

theorem addToParse_fields {σ : Type} :
    ∀ (ids : List Nat) (st : CrawlState σ),
    (addToParse st ids).stationItems = st.stationItems ∧
      (addToParse st ids).lineItems = st.lineItems
  | [], _ => ⟨rfl, rfl⟩
  | other :: rest, st => by
    unfold addToParse
    rw [List.foldl_cons]
    set st2 := (if other ∉ st.parsedStations ∧ other ∉ st.toParse then
        { st with toParse := st.toParse ++ [other] } else st) with hst2
    have h := addToParse_fields rest st2
    unfold addToParse at h
    have hs : st2.stationItems = st.stationItems := by
      rw [hst2]
      split <;> rfl
    have hl : st2.lineItems = st.lineItems := by
      rw [hst2]
      split <;> rfl
    exact ⟨h.1.trans hs, h.2.trans hl⟩


/-- The invariant of the preprocessing loop for a filtered item: the item is
not retained and the recorded line items are consistent with the fetch. -/
def CrawlInv {σ : Type} (ctx : ParserCtx σ) (locals : List String) (badId : Nat)
    (st : CrawlState σ) : Prop :=
  alookup st.stationItems badId = none ∧ LineConsistent ctx locals st

theorem crawlStep_inv {σ : Type} (ctx : ParserCtx σ) (locals : List String)
    (badId : Nat) (item : WDStationItem σ)
    (hinit : stationItemInit ctx.mkAttrs (ctx.fetch badId) badId = .ok item)
    (hsys : ∀ s ∈ item.systemIds, ∀ n, s = some n →
      alookup ctx.systemsDict n = none)
    (hline : ∀ l ∈ item.lineIds, alookup ctx.systemsDict l = none)
    (hlsys : ∀ l ∈ item.lineIds, ∀ li : WDLineItem,
      lineItemInit ctx.extractL (ctx.fetch l) l (some locals) = .ok li →
      ∀ n, li.systemId = some n → alookup ctx.systemsDict n = none)
    (st : CrawlState σ) (wid : Nat) (st2 : CrawlState σ) (brk : Bool)
    (hInv : CrawlInv ctx locals badId st)
    (hstep : crawlStep ctx locals st wid = .ok (st2, brk)) :
    CrawlInv ctx locals badId st2 := by
  unfold crawlStep at hstep
  cases h0 : stationItemInit ctx.mkAttrs (ctx.fetch wid) wid with
  | error e => simp only [h0, pyBind_err] at hstep; cases hstep
  | ok item0 =>
  simp only [h0, pyBind_ok] at hstep
  cases h1 : networkUpdateLoop ctx wid item0 ctx.networkUpdate with
  | error e => simp only [h1, pyBind_err] at hstep; cases hstep
  | ok item1 =>
  simp only [h1, pyBind_ok] at hstep
  cases h2 : fetchLineItems ctx locals
      { st with parsedStations := setInsert st.parsedStations wid }
      item1.lineIds with
  | error e => simp only [h2, pyBind_err] at hstep; cases hstep
  | ok stf =>
  simp only [h2, pyBind_ok] at hstep
  obtain ⟨hfs, hfc⟩ := fetchLineItems_spec ctx locals item1.lineIds _ _ h2
  have hInvf : CrawlInv ctx locals badId { stf with count := stf.count + 1 } := by
    refine ⟨?_, ?_⟩
    · show alookup stf.stationItems badId = none
      rw [hfs]
      exact hInv.1
    · show LineConsistent ctx locals stf
      exact hfc hInv.2
  by_cases hlb : limitBreak ctx.limit (stf.count + 1) = true
  · simp only [hlb, if_true] at hstep
    have : st2 = { stf with count := stf.count + 1 } := by
      cases hstep
      rfl
    rw [this]
    exact hInvf
  · simp only [hlb, if_false, Bool.false_eq_true] at hstep
    cases h3 : resolveSystemsGo stf.lineItems item1.lineIds item1.systemIds with
    | error e => simp only [h3, pyBind_err] at hstep; cases hstep
    | ok sys =>
    simp only [h3, pyBind_ok] at hstep
    by_cases hint : isSystemOfInterest ctx { item1 with systemIds := sys } = true
    · simp only [hint, if_true] at hstep
      -- the interesting branch inserts wid; show wid cannot be badId
      have hwid : wid ≠ badId := by
        intro he
        subst he
        have hi0 : item0 = item := by
          rw [hinit] at h0
          exact (Except.ok.inj h0).symm
        subst hi0
        rw [networkUpdateLoop_of_init ctx wid item0 hinit ctx.networkUpdate] at h1
        have hi1 : item1 = item0 := (Except.ok.inj h1).symm
        subst hi1
        have hfalse : isSystemOfInterest ctx { item1 with systemIds := sys } = false := by
          apply interest_false
          · intro s hs n hsn
            rcases resolveSystemsGo_spec stf.lineItems item1.lineIds
                item1.systemIds sys h3 s hs with hs | ⟨lid, hlid, li, hli, he⟩
            · exact hsys s hs n hsn
            · have hmem := alookup_mem hli
              have hconsist := (hfc hInv.2) (lid, li) hmem
              exact hlsys lid hlid li hconsist n (he ▸ hsn)
          · intro l hl
            exact hline l hl
        rw [hint] at hfalse
        cases hfalse
      -- now the insert keeps badId absent
      have hform : st2 =
          addToParse
            (addToParse
              { stf with
                  count := stf.count + 1,
                  stationItems := ainsert stf.stationItems wid
                    { item1 with systemIds := sys } }
              ({ item1 with systemIds := sys }).transitionConns)
            (({ item1 with systemIds := sys }).nextConns.map Prod.fst) := by
        cases hstep
        rfl
      rw [hform]
      constructor
      · rw [(addToParse_fields _ _).1, (addToParse_fields _ _).1]
        show alookup (ainsert stf.stationItems wid _) badId = none
        rw [alookup_ainsert_ne wid badId _ (fun he => hwid he.symm)]
        rw [hfs]
        exact hInv.1
      · intro e he
        rw [(addToParse_fields _ _).2, (addToParse_fields _ _).2] at he
        exact (hfc hInv.2) e he
    · simp only [hint, if_false, Bool.false_eq_true] at hstep
      cases h4 : wdGetAnyName { item1 with systemIds := sys }.item with
      | error e => simp only [h4, pyBind_err] at hstep; cases hstep
      | ok nm =>
      simp only [h4, pyBind_ok] at hstep
      have : st2 = { stf with count := stf.count + 1 } := by
        cases hstep
        rfl
      rw [this]
      exact hInvf

theorem crawlLoop_inv {σ : Type} (ctx : ParserCtx σ) (locals : List String)
    (badId : Nat) (item : WDStationItem σ)
    (hinit : stationItemInit ctx.mkAttrs (ctx.fetch badId) badId = .ok item)
    (hsys : ∀ s ∈ item.systemIds, ∀ n, s = some n →
      alookup ctx.systemsDict n = none)
    (hline : ∀ l ∈ item.lineIds, alookup ctx.systemsDict l = none)
    (hlsys : ∀ l ∈ item.lineIds, ∀ li : WDLineItem,
      lineItemInit ctx.extractL (ctx.fetch l) l (some locals) = .ok li →
      ∀ n, li.systemId = some n → alookup ctx.systemsDict n = none) :
    ∀ (fuel : Nat) (st st2 : CrawlState σ),
    CrawlInv ctx locals badId st →
    crawlLoop ctx locals fuel st = .ok st2 →
    CrawlInv ctx locals badId st2
  | 0, st, st2, hInv, h => by
    cases h
    exact hInv
  | fuel + 1, st, st2, hInv, h => by
    simp only [crawlLoop] at h
    cases hq : st.toParse with
    | nil =>
      rw [hq] at h
      cases h
      exact hInv
    | cons wid rest =>
      rw [hq] at h
      cases hs : crawlStep ctx locals { st with toParse := rest } wid with
      | error e => simp only [hs, pyBind_err] at h; cases h
      | ok r =>
      simp only [hs, pyBind_ok] at h
      have hInvPop : CrawlInv ctx locals badId { st with toParse := rest } := hInv
      have hInv1 : CrawlInv ctx locals badId r.1 :=
        crawlStep_inv ctx locals badId item hinit hsys hline hlsys _ wid r.1 r.2
          hInvPop (by rw [hs])
      by_cases hb : r.2 = true
      · simp only [hb, if_true] at h
        cases h
        exact hInv1
      · simp only [hb, if_false, Bool.false_eq_true] at h
        exact crawlLoop_inv ctx locals badId item hinit hsys hline hlsys
          fuel r.1 st2 hInv1 h


theorem pyPure {α : Type} (a : α) : (pure a : Except PyErr α) = Except.ok a := rfl

theorem phase2Step_arena {σ : Type} (ctx : ParserCtx σ) (w : World σ)
    (lines : List (Nat × Nat)) (lwid : Nat) (li : WDLineItem)
    (r : World σ × List (Nat × Nat))
    (h : phase2Step ctx w lines lwid li = .ok r) :
    r.1.stationArena = w.stationArena := by
  unfold phase2Step at h
  split at h
  · dsimp only at h
    split at h
    · cases h
      rfl
    · cases h
      rfl
  · split at h
    · dsimp only at h
      split at h
      · cases h
        rfl
      · cases h
    · cases h
      rfl

theorem phase2_arena {σ : Type} (ctx : ParserCtx σ) :
    ∀ (items : List (Nat × WDLineItem)) (w : World σ)
      (lines : List (Nat × Nat)) (r : World σ × List (Nat × Nat)),
    phase2 ctx w lines items = .ok r → r.1.stationArena = w.stationArena
  | [], w, lines, r, h => by
    cases h
    rfl
  | e :: rest, w, lines, r, h => by
    simp only [phase2] at h
    cases hs : phase2Step ctx w lines e.1 e.2 with
    | error er => simp only [hs, pyBind_err] at h; cases h
    | ok r1 =>
      simp only [hs, pyBind_ok] at h
      rw [phase2_arena ctx rest r1.1 r1.2 r h]
      exact phase2Step_arena ctx w lines e.1 e.2 r1 hs

theorem srcItemsOf_append_station {σ : Type} (w : World σ) (s : StationObj σ) :
    srcItemsOf { w with stationArena := w.stationArena ++ [s] } =
      srcItemsOf w ++ [s.srcItem] := by
  simp [srcItemsOf]

theorem srcItemsOf_intraWire {σ : Type} (w : World σ) (idxs : List Nat) :
    srcItemsOf (intraWirePairs w idxs) = srcItemsOf w := by
  unfold intraWirePairs
  exact foldl_world_pres srcItemsOf _
    (fun w s => foldl_world_pres srcItemsOf _
      (fun w o => by split <;> simp [srcItemsOf_addConn]) idxs w) idxs w

theorem phase3Lines_src {σ : Type} (extractS : String → String → String)
    (locals : List String) (lines : List (Nat × Nat)) (wid : Nat)
    (it : WDStationItem σ) :
    ∀ (lids : List Nat) (w : World σ) (acc : List Nat)
      (r : World σ × List Nat),
    phase3Lines extractS locals lines wid it w acc lids = .ok r →
    ∀ x ∈ srcItemsOf r.1, x ∈ srcItemsOf w ∨ x = some wid
  | [], w, acc, r, h => by
    cases h
    exact fun x hx => Or.inl hx
  | lid :: rest, w, acc, r, h => by
    simp only [phase3Lines] at h
    cases hl : alookup lines lid with
    | none =>
      simp only [hl] at h
      exact phase3Lines_src extractS locals lines wid it rest w acc r h
    | some lineIdx =>
      simp only [hl] at h
      split at h
      · cases h
      · split at h
        · cases h
        · cases h
        · split at h
          · intro x hx
            rcases phase3Lines_src extractS locals lines wid it rest _ _ r h x hx
              with hx | hx
            · rw [srcItemsOf_append_station] at hx
              rcases List.mem_append.mp hx with hx | hx
              · exact Or.inl hx
              · exact Or.inr (List.mem_singleton.mp hx)
            · exact Or.inr hx
          · exact phase3Lines_src extractS locals lines wid it rest w acc r h

theorem phase3_src {σ : Type} (extractS : String → String → String)
    (locals : List String) (lines : List (Nat × Nat)) :
    ∀ (items : List (Nat × WDStationItem σ)) (w : World σ)
      (stationsBy : List (Nat × List Nat)) (r : World σ × List (Nat × List Nat)),
    phase3 extractS locals lines w stationsBy items = .ok r →
    ∀ x ∈ srcItemsOf r.1,
      x ∈ srcItemsOf w ∨ ∃ wid it, (wid, it) ∈ items ∧ x = some wid
  | [], w, stationsBy, r, h => by
    cases h
    exact fun x hx => Or.inl hx
  | (wid, it) :: rest, w, stationsBy, r, h => by
    simp only [phase3] at h
    cases hs : phase3Lines extractS locals lines wid it w [] it.lineIds with
    | error er => simp only [hs, pyBind_err] at h; cases h
    | ok r1 =>
      simp only [hs, pyBind_ok] at h
      intro x hx
      rcases phase3_src extractS locals lines rest _ _ r h x hx with hx | ⟨w2, it2, hm, he⟩
      · rw [srcItemsOf_intraWire] at hx
        rcases phase3Lines_src extractS locals lines wid it it.lineIds w [] r1 hs x hx
          with hx | hx
        · exact Or.inl hx
        · exact Or.inr ⟨wid, it, List.mem_cons_self _ _, hx⟩
      · exact Or.inr ⟨w2, it2, List.mem_cons_of_mem _ hm, he⟩

theorem srcItemsOf_wireNextTgt {σ : Type} (s : Nat) (common : List Nat)
    (w : World σ) (t : Nat) :
    srcItemsOf (wireNextTgt s common w t) = srcItemsOf w := by
  unfold wireNextTgt
  split
  · exact srcItemsOf_addConn w s t _
  · rfl

theorem srcItemsOf_wireNextStep {σ : Type} (items : List (Nat × WDStationItem σ))
    (stationsBy : List (Nat × List Nat)) (a : Nat) (itA : WDStationItem σ)
    (w : World σ) (bc : Nat × Nat) :
    srcItemsOf (wireNextStep items stationsBy a itA w bc) = srcItemsOf w := by
  unfold wireNextStep
  cases alookup items bc.1 with
  | none => rfl
  | some itB =>
    unfold wireNextPair
    exact foldl_world_pres srcItemsOf _
      (fun w s => foldl_world_pres srcItemsOf _
        (fun w t => srcItemsOf_wireNextTgt s _ w t) _ w) _ w

theorem srcItemsOf_wireTrans {σ : Type} (items : List (Nat × WDStationItem σ))
    (stationsBy : List (Nat × List Nat)) (a : Nat) (itA : WDStationItem σ)
    (w : World σ) :
    srcItemsOf (wireTransForItem items stationsBy a itA w) = srcItemsOf w := by
  unfold wireTransForItem
  refine foldl_world_pres srcItemsOf _ (fun w b => ?_) _ w
  cases alookup items b with
  | none => rfl
  | some itB =>
    exact foldl_world_pres srcItemsOf _
      (fun w s => foldl_world_pres srcItemsOf _
        (fun w t => srcItemsOf_addConn w s t _) _ w) _ w

theorem srcItemsOf_phase4 {σ : Type} (items : List (Nat × WDStationItem σ))
    (stationsBy : List (Nat × List Nat)) (w : World σ) :
    srcItemsOf (phase4 items stationsBy w) = srcItemsOf w := by
  unfold phase4
  refine foldl_world_pres srcItemsOf _ (fun w e => ?_) _ w
  rw [srcItemsOf_wireTrans]
  unfold wireNextForItem
  exact foldl_world_pres srcItemsOf _
    (fun w bc => srcItemsOf_wireNextStep items stationsBy e.1 e.2 w bc) _ w

theorem phase5_arena {σ : Type} (stationsBy : List (Nat × List Nat))
    (w : World σ) (items : List (Nat × WDStationItem σ)) :
    (phase5 stationsBy w items).stationArena = w.stationArena := by
  unfold phase5
  refine foldl_world_pres (fun w => w.stationArena) _ (fun w e => ?_) _ w
  refine foldl_world_pres (fun w => w.stationArena) _ (fun w idx => ?_) _ w
  unfold phase5Station
  dsimp only
  split
  · rfl
  · rfl

/-! ## Claim C2: items outside the systems of interest are filtered out -/

/-- The city step keeps the station arena and the local languages. -/
theorem cityStep_spec {σ : Type} (ctx : ParserCtx σ) (m0 : World σ)
    (cityId : Nat) (w1 : World σ) (h : cityStep ctx m0 cityId = .ok w1) :
    w1.stationArena = m0.stationArena
    ∧ w1.map.localLanguages = m0.map.localLanguages := by
  unfold cityStep at h
  by_cases hc : cityId ≠ 0
  · rw [if_pos hc] at h
    cases hit : wikidataItemInit (ctx.fetch cityId) cityId with
    | error e => simp only [hit, pyBind_err] at h; cases h
    | ok it =>
      simp only [hit, pyBind_ok, pyPure] at h
      cases h
      exact ⟨rfl, rfl⟩
  · rw [if_neg hc, pyPure] at h
    cases h
    exact ⟨rfl, rfl⟩

/-- Claim C2.  Interest filtering invariant: in any terminating run of
WikidataCityParser.parse, a station item none of whose resolved system
wikidata ids (the raw P361/P16 ids together with the system ids of its
lines' items) and none of whose line wikidata ids appears in the
caller-supplied systems-of-interest dict is discarded during phase 1 — it
is not retained in station_items — and consequently no station object built
by the run carries it as source, so it is never added to any System's
station map. -/
theorem C2_interest_filtering {σ : Type} (ctx : ParserCtx σ) (m0 : World σ)
    (initIds : List Nat) (cityId fuel badId : Nat) (item : WDStationItem σ)
    (res : ParseResult σ)
    (hinit : stationItemInit ctx.mkAttrs (ctx.fetch badId) badId = .ok item)
    (hsys : ∀ s ∈ item.systemIds, ∀ n, s = some n →
      alookup ctx.systemsDict n = none)
    (hline : ∀ l ∈ item.lineIds, alookup ctx.systemsDict l = none)
    (hlsys : ∀ l ∈ item.lineIds, ∀ li : WDLineItem,
      lineItemInit ctx.extractL (ctx.fetch l) l (some m0.map.localLanguages) = .ok li →
      ∀ n, li.systemId = some n → alookup ctx.systemsDict n = none)
    (hfresh : ∀ s ∈ m0.stationArena, s.srcItem ≠ some badId)
    (hres : parseRun ctx m0 initIds cityId fuel = .ok res) :
    alookup res.crawl.stationItems badId = none
    ∧ (∀ s ∈ res.world.stationArena, s.srcItem ≠ some badId)
    ∧ (∀ e ∈ res.world.map.systems, ∀ p ∈ e.2.stations,
        (stationAt res.world p.2).srcItem ≠ some badId) := by
  unfold parseRun at hres
  cases hv : validateSystems m0 ctx.systemsDict with
  | error e => simp only [hv, pyBind_err] at hres; cases hres
  | ok u =>
  simp only [hv, pyBind_ok] at hres
  cases hw1 : cityStep ctx m0 cityId with
  | error e => simp only [hw1, pyBind_err] at hres; cases hres
  | ok w1 =>
  simp only [hw1, pyBind_ok] at hres
  obtain ⟨harena1, hlocals1⟩ := cityStep_spec ctx m0 cityId w1 hw1
  cases hcl : crawlLoop ctx w1.map.localLanguages fuel
      { toParse := initIds.foldl setInsert [] } with
  | error e => simp only [hcl, pyBind_err] at hres; cases hres
  | ok stF =>
  simp only [hcl, pyBind_ok] at hres
  cases hp2 : phase2 ctx w1 [] stF.lineItems with
  | error e => simp only [hp2, pyBind_err] at hres; cases hres
  | ok r2 =>
  simp only [hp2, pyBind_ok] at hres
  cases hp3 : phase3 ctx.extractS w1.map.localLanguages r2.2 r2.1 [] stF.stationItems with
  | error e => simp only [hp3, pyBind_err] at hres; cases hres
  | ok r3 =>
  simp only [hp3, pyBind_ok] at hres
  cases hres
  -- the crawl-state invariant across phase 1
  have hlsys1 : ∀ l ∈ item.lineIds, ∀ li : WDLineItem,
      lineItemInit ctx.extractL (ctx.fetch l) l (some w1.map.localLanguages) = .ok li →
      ∀ n, li.systemId = some n → alookup ctx.systemsDict n = none := by
    intro l hl li hli n hn
    rw [hlocals1] at hli
    exact hlsys l hl li hli n hn
  have hInv0 : CrawlInv ctx w1.map.localLanguages badId
      { toParse := initIds.foldl setInsert [] } :=
    ⟨rfl, fun e he => absurd he (List.not_mem_nil e)⟩
  have hInvF : CrawlInv ctx w1.map.localLanguages badId stF :=
    crawlLoop_inv ctx w1.map.localLanguages badId item hinit hsys hline hlsys1
      fuel _ stF hInv0 hcl
  -- the materialisation phases never introduce the filtered source item
  have hsrcEq :
      srcItemsOf (phase5 r3.2 (phase4 stF.stationItems r3.2 r3.1) stF.stationItems)
        = srcItemsOf r3.1 := by
    have h5 :
        srcItemsOf (phase5 r3.2 (phase4 stF.stationItems r3.2 r3.1) stF.stationItems)
          = srcItemsOf (phase4 stF.stationItems r3.2 r3.1) := by
      unfold srcItemsOf
      rw [phase5_arena]
    rw [h5, srcItemsOf_phase4]
  have hsrc : ∀ x ∈ srcItemsOf
      (phase5 r3.2 (phase4 stF.stationItems r3.2 r3.1) stF.stationItems),
      x ≠ some badId := by
    intro x hx hxe
    rw [hsrcEq] at hx
    rcases phase3_src ctx.extractS w1.map.localLanguages r2.2 stF.stationItems
        r2.1 [] r3 hp3 x hx with hx | ⟨wid, it2, hm, he⟩
    · have harena2 : r2.1.stationArena = w1.stationArena :=
        phase2_arena ctx stF.lineItems w1 [] r2 hp2
      have hx0 : x ∈ srcItemsOf m0 := by
        unfold srcItemsOf at hx ⊢
        rw [harena2, harena1] at hx
        exact hx
      rcases List.mem_map.mp hx0 with ⟨s, hs, hse⟩
      exact hfresh s hs (by rw [hse, hxe])
    · have hwid : wid = badId := Option.some.inj (he.symm.trans hxe)
      exact alookup_none_not_mem hInvF.1 it2 (hwid ▸ hm)
  have hb : ∀ s ∈
      (phase5 r3.2 (phase4 stF.stationItems r3.2 r3.1) stF.stationItems).stationArena,
      s.srcItem ≠ some badId := by
    intro s hs
    exact hsrc s.srcItem (List.mem_map.mpr ⟨s, hs, rfl⟩)
  have hc : ∀ e ∈
      (phase5 r3.2 (phase4 stF.stationItems r3.2 r3.1) stF.stationItems).map.systems,
      ∀ p ∈ e.2.stations,
      (stationAt (phase5 r3.2 (phase4 stF.stationItems r3.2 r3.1) stF.stationItems)
        p.2).srcItem ≠ some badId := by
    intro e he p hp
    unfold stationAt
    rw [List.getD_eq_getElem?_getD]
    cases hg :
        (phase5 r3.2 (phase4 stF.stationItems r3.2 r3.1) stF.stationItems).stationArena[p.2]? with
    | none =>
      exact fun hcontra => Option.noConfusion hcontra
    | some s =>
      exact hsrc s.srcItem (List.mem_map.mpr ⟨s, List.getElem?_mem hg, rfl⟩)
  exact ⟨hInvF.1, hb, hc⟩

/-- The raw entity of an isolated station item: a label and nothing else. -/
def c2Entity : RawEntity :=
  { labels := some [("en", "Solo")] }

/-- A fetch collaborator serving only item 2. -/
def c2Fetch : Nat → RawStructure := fun n =>
  if n = 2 then { entities := some [("Q2", c2Entity)] }
  else { entities := none }

/-- The crawl inputs for the C2 witness run: system 1 is of interest, but
item 2 names no system and no line. -/
def c2Ctx : ParserCtx Unit :=
  { regexM := fun _ _ => false
    fetch := c2Fetch
    mkAttrs := fun _ => .ok ()
    extractS := fun n _ => n
    extractL := fun n _ => n
    systemsDict := [(1, "metro")]
    networkUpdate := []
    limit := none }

/-- The initial map for the C2 witness run: one empty system named metro. -/
def c2World : World Unit :=
  { map := { systems := [("metro", {})] } }

/-- The station item the C2 witness run builds for item 2. -/
def c2Item : WDStationItem Unit :=
  { item := { wikidataId := 2
              entity := c2Entity
              claims := []
              names := [("en", "Solo")]
              descriptions := []
              aliases := []
              siteLinks := [] }
    structureType := none
    systemIds := []
    lineIds := []
    nextConns := []
    transitionConns := []
    attrs := () }

/-- What the C2 witness run returns: item 2 was visited but not retained. -/
def c2Res : ParseResult Unit :=
  { world := c2World
    crawl := { toParse := []
               parsedStations := [2]
               parsedLines := []
               stationItems := []
               lineItems := []
               count := 1 }
    lines := []
    stationsBy := [] }

theorem C2_interest_filtering_witness :
    alookup c2Res.crawl.stationItems 2 = none
    ∧ (∀ s ∈ c2Res.world.stationArena, s.srcItem ≠ some 2)
    ∧ (∀ e ∈ c2Res.world.map.systems, ∀ p ∈ e.2.stations,
        (stationAt c2Res.world p.2).srcItem ≠ some 2) :=
  C2_interest_filtering c2Ctx c2World [2] 0 3 2 c2Item c2Res
    (by decide)
    (fun s hs => absurd hs (List.not_mem_nil s))
    (fun l hl => absurd hl (List.not_mem_nil l))
    (fun l hl => absurd hl (List.not_mem_nil l))
    (fun s hs => absurd hs (List.not_mem_nil s))
    (by decide)

/-! ## Claim C1: the crawl graph does not depend on the abstract attributes

The only run-to-run variation of parse under a fixed fetch collaborator is
the abstract attribute computation (the clock behind the station status).
Erasing the attributes to Unit turns two such runs into the same pure
computation; the graph observation only reads erased data. -/

/-- Map a station item to its attribute-free shadow. -/
def eraseItem {σ : Type} (it : WDStationItem σ) : WDStationItem Unit :=
  { item := it.item
    structureType := it.structureType
    systemIds := it.systemIds
    lineIds := it.lineIds
    nextConns := it.nextConns
    transitionConns := it.transitionConns
    attrs := () }

/-- Map a station object to its attribute-free shadow. -/
def eraseStation {σ : Type} (s : StationObj σ) : StationObj Unit :=
  { id_ := s.id_
    srcItem := s.srcItem
    line := s.line
    names := s.names
    siteLinks := s.siteLinks
    conns := s.conns
    attrs := s.attrs.map (fun _ => ()) }

/-- Map a world to its attribute-free shadow. -/
def eraseWorld {σ : Type} (w : World σ) : World Unit :=
  { map := w.map
    lineArena := w.lineArena
    stationArena := w.stationArena.map eraseStation }

/-- Map a crawl state to its attribute-free shadow. -/
def eraseState {σ : Type} (st : CrawlState σ) : CrawlState Unit :=
  { toParse := st.toParse
    parsedStations := st.parsedStations
    parsedLines := st.parsedLines
    stationItems := st.stationItems.map (fun e => (e.1, eraseItem e.2))
    lineItems := st.lineItems
    count := st.count }

/-- Map the crawl inputs to their attribute-free shadow: everything two runs
of the idempotence claim share.  The abstract attribute computation survives
only through its success or failure. -/
def eraseCtx {σ : Type} (ctx : ParserCtx σ) : ParserCtx Unit :=
  { regexM := ctx.regexM
    fetch := ctx.fetch
    mkAttrs := fun e => (ctx.mkAttrs e).map (fun _ => ())
    extractS := ctx.extractS
    extractL := ctx.extractL
    systemsDict := ctx.systemsDict
    networkUpdate := ctx.networkUpdate
    limit := ctx.limit }

/-- Map a parse result to its attribute-free shadow. -/
def eraseResult {σ : Type} (r : ParseResult σ) : ParseResult Unit :=
  { world := eraseWorld r.world
    crawl := eraseState r.crawl
    lines := r.lines
    stationsBy := r.stationsBy }

theorem pyMap_ok {α β : Type} (f : α → β) (a : α) :
    Except.map f (.ok a : Except PyErr α) = .ok (f a) := rfl

theorem pyMap_err {α β : Type} (f : α → β) (e : PyErr) :
    Except.map f (.error e : Except PyErr α) = .error e := rfl

theorem eraseCtx_regexM {σ : Type} (ctx : ParserCtx σ) :
    (eraseCtx ctx).regexM = ctx.regexM := rfl

theorem eraseCtx_fetch {σ : Type} (ctx : ParserCtx σ) :
    (eraseCtx ctx).fetch = ctx.fetch := rfl

theorem eraseCtx_mkAttrs {σ : Type} (ctx : ParserCtx σ) :
    (eraseCtx ctx).mkAttrs = fun e => (ctx.mkAttrs e).map (fun _ => ()) := rfl

theorem eraseCtx_extractS {σ : Type} (ctx : ParserCtx σ) :
    (eraseCtx ctx).extractS = ctx.extractS := rfl

theorem eraseCtx_extractL {σ : Type} (ctx : ParserCtx σ) :
    (eraseCtx ctx).extractL = ctx.extractL := rfl

theorem eraseCtx_systemsDict {σ : Type} (ctx : ParserCtx σ) :
    (eraseCtx ctx).systemsDict = ctx.systemsDict := rfl

theorem eraseCtx_networkUpdate {σ : Type} (ctx : ParserCtx σ) :
    (eraseCtx ctx).networkUpdate = ctx.networkUpdate := rfl

theorem eraseCtx_limit {σ : Type} (ctx : ParserCtx σ) :
    (eraseCtx ctx).limit = ctx.limit := rfl

theorem eraseItem_item {σ : Type} (it : WDStationItem σ) :
    (eraseItem it).item = it.item := rfl

theorem eraseItem_systemIds {σ : Type} (it : WDStationItem σ) :
    (eraseItem it).systemIds = it.systemIds := rfl

theorem eraseItem_lineIds {σ : Type} (it : WDStationItem σ) :
    (eraseItem it).lineIds = it.lineIds := rfl

theorem eraseItem_nextConns {σ : Type} (it : WDStationItem σ) :
    (eraseItem it).nextConns = it.nextConns := rfl

theorem eraseItem_transitionConns {σ : Type} (it : WDStationItem σ) :
    (eraseItem it).transitionConns = it.transitionConns := rfl

theorem eraseStation_line {σ : Type} (s : StationObj σ) :
    (eraseStation s).line = s.line := rfl

theorem eraseStation_conns {σ : Type} (s : StationObj σ) :
    (eraseStation s).conns = s.conns := rfl

theorem eraseWorld_map {σ : Type} (w : World σ) :
    (eraseWorld w).map = w.map := rfl

theorem eraseWorld_lineArena {σ : Type} (w : World σ) :
    (eraseWorld w).lineArena = w.lineArena := rfl

theorem eraseWorld_arena {σ : Type} (w : World σ) :
    (eraseWorld w).stationArena = w.stationArena.map eraseStation := rfl

theorem eraseState_toParse {σ : Type} (st : CrawlState σ) :
    (eraseState st).toParse = st.toParse := rfl

theorem eraseState_parsedStations {σ : Type} (st : CrawlState σ) :
    (eraseState st).parsedStations = st.parsedStations := rfl

theorem eraseState_parsedLines {σ : Type} (st : CrawlState σ) :
    (eraseState st).parsedLines = st.parsedLines := rfl

theorem eraseState_stationItems {σ : Type} (st : CrawlState σ) :
    (eraseState st).stationItems
      = st.stationItems.map (fun e => (e.1, eraseItem e.2)) := rfl

theorem eraseState_lineItems {σ : Type} (st : CrawlState σ) :
    (eraseState st).lineItems = st.lineItems := rfl

theorem eraseState_count {σ : Type} (st : CrawlState σ) :
    (eraseState st).count = st.count := rfl

theorem alookup_map_snd {κ α β : Type} [DecidableEq κ] (f : α → β) (k : κ) :
    ∀ l : List (κ × α),
    alookup (l.map (fun e => (e.1, f e.2))) k = (alookup l k).map f
  | [] => rfl
  | p :: rest => by
    unfold alookup
    simp only [List.map_cons, List.find?]
    by_cases h : p.1 = k
    · simp [h]
    · simp only [decide_eq_false h]
      exact alookup_map_snd f k rest

theorem ainsert_map_snd {κ α β : Type} [DecidableEq κ] (f : α → β) (k : κ) (v : α) :
    ∀ l : List (κ × α),
    ainsert (l.map (fun e => (e.1, f e.2))) k (f v)
      = (ainsert l k v).map (fun e => (e.1, f e.2))
  | [] => rfl
  | p :: rest => by
    simp only [List.map_cons]
    unfold ainsert
    dsimp only
    by_cases h : p.1 = k
    · rw [if_pos h, if_pos h]
      rfl
    · rw [if_neg h, if_neg h]
      simp only [List.map_cons]
      rw [ainsert_map_snd f k v rest]

theorem modify_map_comm {α β : Type} (f : α → β) (g : α → α) (g2 : β → β)
    (h : ∀ x, f (g x) = g2 (f x)) (n : Nat) (l : List α) :
    (List.modify g n l).map f = List.modify g2 n (l.map f) := by
  apply List.ext_getElem?
  intro m
  simp only [List.getElem?_map, List.getElem?_modify]
  cases l[m]? with
  | none => rfl
  | some a => by_cases hm : n = m <;> simp [hm, h]

theorem foldl_comm_map {α β γ : Type} (E : α → β) (g : α → γ → α)
    (g2 : β → γ → β) (h : ∀ a x, g2 (E a) x = E (g a x)) :
    ∀ (l : List γ) (a : α), List.foldl g2 (E a) l = E (List.foldl g a l)
  | [], a => rfl
  | x :: rest, a => by
    rw [List.foldl_cons, List.foldl_cons, h, foldl_comm_map E g g2 h rest]

theorem stationAt_erase {σ : Type} (w : World σ) (idx : Nat) :
    stationAt (eraseWorld w) idx = eraseStation (stationAt w idx) := by
  unfold stationAt
  show (w.stationArena.map eraseStation).getD idx {}
    = eraseStation (w.stationArena.getD idx {})
  rw [List.getD_eq_getElem?_getD, List.getD_eq_getElem?_getD, List.getElem?_map]
  cases w.stationArena[idx]? with
  | none => rfl
  | some s => rfl

theorem worldAddConn_erase {σ : Type} (w : World σ) (s t : Nat)
    (ty : ConnectionType) :
    worldAddConn (eraseWorld w) s t ty = eraseWorld (worldAddConn w s t ty) := by
  unfold worldAddConn
  rw [show (eraseWorld w).stationArena = w.stationArena.map eraseStation from rfl,
      ← modify_map_comm eraseStation
        (fun x : StationObj σ => { x with conns := connAdd x.conns t ty })
        (fun x : StationObj Unit => { x with conns := connAdd x.conns t ty })
        (fun x => rfl) s w.stationArena]
  rfl

theorem getSystem_erase {σ : Type} (w : World σ) (name : String) :
    getSystem (eraseWorld w) name = getSystem w name := rfl

theorem setSystem_erase {σ : Type} (w : World σ) (name : String)
    (sys : SystemObj) :
    setSystem (eraseWorld w) name sys = eraseWorld (setSystem w name sys) := rfl

theorem eraseItem_structureType {σ : Type} (it : WDStationItem σ) :
    (eraseItem it).structureType = it.structureType := rfl

theorem eraseItem_attrs {σ : Type} (it : WDStationItem σ) :
    (eraseItem it).attrs = () := rfl

theorem mk_erase {σ : Type} (it : WikidataItem) (stq : Option String)
    (sysIds : List (Option Nat)) (lids : List Nat) (nc : List (Nat × Nat))
    (tc : List Nat) (a : σ) :
    (⟨it, stq, sysIds, lids, nc, tc, ()⟩ : WDStationItem Unit)
      = eraseItem (⟨it, stq, sysIds, lids, nc, tc, a⟩ : WDStationItem σ) := rfl

theorem eraseItem_setSys {σ : Type} (it : WDStationItem σ)
    (sys : List (Option Nat)) :
    ({ eraseItem it with systemIds := sys } : WDStationItem Unit)
      = eraseItem { it with systemIds := sys } := rfl

theorem isSystemOfInterest_erase {σ : Type} (ctx : ParserCtx σ)
    (it : WDStationItem σ) :
    isSystemOfInterest (eraseCtx ctx) (eraseItem it)
      = isSystemOfInterest ctx it := rfl

theorem eraseState_setToParse {σ : Type} (st : CrawlState σ) (r : List Nat) :
    (⟨r, (eraseState st).parsedStations, (eraseState st).parsedLines,
      (eraseState st).stationItems, (eraseState st).lineItems,
      (eraseState st).count⟩ : CrawlState Unit)
      = eraseState { st with toParse := r } := rfl

theorem eraseState_markStation {σ : Type} (st : CrawlState σ) (wid : Nat) :
    ({ eraseState st with
        parsedStations := setInsert (eraseState st).parsedStations wid } :
      CrawlState Unit)
      = eraseState { st with
          parsedStations := setInsert st.parsedStations wid } := rfl

theorem eraseState_bump {σ : Type} (st : CrawlState σ) :
    ({ eraseState st with count := st.count + 1 } : CrawlState Unit)
      = eraseState { st with count := st.count + 1 } := rfl

theorem eraseState_insertItem {σ : Type} (st : CrawlState σ) (wid : Nat)
    (it : WDStationItem σ) :
    ({ eraseState st with
        stationItems := ainsert (eraseState st).stationItems wid (eraseItem it) } :
      CrawlState Unit)
      = eraseState { st with stationItems := ainsert st.stationItems wid it } := by
  show ({ eraseState st with
      stationItems := ainsert (st.stationItems.map (fun e => (e.1, eraseItem e.2))) wid (eraseItem it) } :
    CrawlState Unit) = _
  rw [ainsert_map_snd]
  rfl

theorem stationItemInit_erase {σ : Type} (mk : RawEntity → Except PyErr σ)
    (raw : RawStructure) (wid : Nat) :
    stationItemInit (fun e => (mk e).map (fun _ => ())) raw wid
      = Except.map eraseItem (stationItemInit mk raw wid) := by
  unfold stationItemInit
  cases h1 : wikidataItemInit raw wid with
  | error e => simp only [h1, pyBind_err, pyMap_err]
  | ok it =>
  simp only [h1, pyBind_ok]
  cases h2 : alookup it.claims "P31" with
  | none =>
    simp only [h2, pyPure, pyBind_ok]
    cases h4 : initialSystemIds it.claims with
    | error e => simp only [h4, pyBind_err, pyMap_err]
    | ok sys =>
    simp only [h4, pyBind_ok]
    cases h5 : mk it.entity with
    | error e => simp only [h5, pyMap_err, pyBind_err]
    | ok a =>
      simp only [h5, pyMap_ok, pyBind_ok]
      rfl
  | some cs =>
    simp only [h2]
    cases h3 : decodeInstanceOf cs none with
    | error e => simp only [h3, pyBind_err, pyMap_err]
    | ok stq =>
    simp only [h3, pyBind_ok]
    cases h4 : initialSystemIds it.claims with
    | error e => simp only [h4, pyBind_err, pyMap_err]
    | ok sys =>
    simp only [h4, pyBind_ok]
    cases h5 : mk it.entity with
    | error e => simp only [h5, pyMap_err, pyBind_err]
    | ok a =>
      simp only [h5, pyMap_ok, pyBind_ok]
      rfl

theorem networkUpdateLoop_erase {σ : Type} (ctx : ParserCtx σ) (wid : Nat) :
    ∀ (ps : List String) (it : WDStationItem σ),
    networkUpdateLoop (eraseCtx ctx) wid (eraseItem it) ps
      = Except.map eraseItem (networkUpdateLoop ctx wid it ps)
  | [], it => rfl
  | p :: rest, it => by
    simp only [networkUpdateLoop, eraseItem_item, eraseCtx_regexM, eraseCtx_fetch,
      eraseCtx_mkAttrs]
    by_cases hm : (match wdGetName it.item "en" with
      | none => false
      | some s => decide (s ≠ "") && ctx.regexM p s) = true
    · rw [if_pos hm, if_pos hm]
      rw [stationItemInit_erase]
      cases h2 : stationItemInit ctx.mkAttrs (ctx.fetch wid) wid with
      | error e => simp only [h2, pyMap_err, pyBind_err]
      | ok it2 =>
        simp only [h2, pyMap_ok, pyBind_ok]
        exact networkUpdateLoop_erase ctx wid rest it2
    · rw [if_neg hm, if_neg hm]
      exact networkUpdateLoop_erase ctx wid rest it

theorem fetchLineItems_erase {σ : Type} (ctx : ParserCtx σ)
    (locals : List String) :
    ∀ (lids : List Nat) (st : CrawlState σ),
    fetchLineItems (eraseCtx ctx) locals (eraseState st) lids
      = Except.map eraseState (fetchLineItems ctx locals st lids)
  | [], st => rfl
  | lid :: rest, st => by
    simp only [fetchLineItems, eraseState_parsedLines, eraseState_lineItems,
      eraseCtx_extractL, eraseCtx_fetch]
    by_cases h : lid ∈ st.parsedLines
    · rw [if_pos h, if_pos h]
      exact fetchLineItems_erase ctx locals rest st
    · rw [if_neg h, if_neg h]
      cases h2 : lineItemInit ctx.extractL (ctx.fetch lid) lid (some locals) with
      | error e => simp only [h2, pyBind_err, pyMap_err]
      | ok li =>
        simp only [h2, pyBind_ok]
        rw [show ({ eraseState st with
              lineItems := ainsert st.lineItems lid li,
              parsedLines := setInsert st.parsedLines lid } : CrawlState Unit)
            = eraseState { st with
                lineItems := ainsert st.lineItems lid li,
                parsedLines := setInsert st.parsedLines lid } from rfl]
        exact fetchLineItems_erase ctx locals rest _

theorem addToParseStep_erase {σ : Type} (st : CrawlState σ) (i : Nat) :
    (if i ∉ (eraseState st).parsedStations ∧ i ∉ (eraseState st).toParse then
      { eraseState st with toParse := (eraseState st).toParse ++ [i] }
    else eraseState st)
      = eraseState (if i ∉ st.parsedStations ∧ i ∉ st.toParse then
          { st with toParse := st.toParse ++ [i] } else st) := by
  simp only [eraseState_parsedStations, eraseState_toParse]
  by_cases h : i ∉ st.parsedStations ∧ i ∉ st.toParse
  · rw [if_pos h, if_pos h]
    rfl
  · rw [if_neg h, if_neg h]

theorem addToParse_erase {σ : Type} (ids : List Nat) (st : CrawlState σ) :
    addToParse (eraseState st) ids = eraseState (addToParse st ids) := by
  unfold addToParse
  refine foldl_comm_map eraseState _ _ (fun st2 i => ?_) ids st
  exact addToParseStep_erase st2 i

theorem crawlStep_erase {σ : Type} (ctx : ParserCtx σ) (locals : List String)
    (st : CrawlState σ) (wid : Nat) :
    crawlStep (eraseCtx ctx) locals (eraseState st) wid
      = Except.map (fun r => (eraseState r.1, r.2)) (crawlStep ctx locals st wid) := by
  unfold crawlStep
  simp only [eraseCtx_mkAttrs, eraseCtx_fetch, eraseCtx_networkUpdate, eraseCtx_limit]
  rw [stationItemInit_erase]
  cases h1 : stationItemInit ctx.mkAttrs (ctx.fetch wid) wid with
  | error e => simp only [h1, pyMap_err, pyBind_err]
  | ok item0 =>
  simp only [h1, pyMap_ok, pyBind_ok]
  rw [networkUpdateLoop_erase]
  cases h2 : networkUpdateLoop ctx wid item0 ctx.networkUpdate with
  | error e => simp only [h2, pyMap_err, pyBind_err]
  | ok item1 =>
  simp only [h2, pyMap_ok, pyBind_ok, eraseItem_lineIds]
  rw [eraseState_markStation]
  rw [fetchLineItems_erase]
  cases h3 : fetchLineItems ctx locals
      { st with parsedStations := setInsert st.parsedStations wid }
      item1.lineIds with
  | error e => simp only [h3, pyMap_err, pyBind_err]
  | ok stf =>
  simp only [h3, pyMap_ok, pyBind_ok, eraseState_count]
  by_cases hlb : limitBreak ctx.limit (stf.count + 1) = true
  · rw [if_pos hlb, if_pos hlb, eraseState_bump]
    rfl
  · rw [if_neg hlb, if_neg hlb]
    simp only [eraseState_lineItems, eraseItem_systemIds]
    cases h4 : resolveSystemsGo stf.lineItems item1.lineIds item1.systemIds with
    | error e => simp only [h4, pyBind_err, pyMap_err]
    | ok sys =>
    simp only [h4, pyBind_ok, eraseItem_item, eraseItem_structureType,
      eraseItem_systemIds, eraseItem_lineIds, eraseItem_nextConns,
      eraseItem_transitionConns, eraseItem_attrs]
    rw [mk_erase item1.item item1.structureType sys item1.lineIds item1.nextConns
      item1.transitionConns item1.attrs]
    simp only [isSystemOfInterest_erase, eraseItem_transitionConns,
      eraseItem_nextConns]
    by_cases hint : isSystemOfInterest ctx
        (⟨item1.item, item1.structureType, sys, item1.lineIds, item1.nextConns,
          item1.transitionConns, item1.attrs⟩ : WDStationItem σ) = true
    · rw [if_pos hint, if_pos hint]
      have hA : (⟨(eraseState stf).toParse, (eraseState stf).parsedStations,
            (eraseState stf).parsedLines,
            ainsert (eraseState stf).stationItems wid (eraseItem
              (⟨item1.item, item1.structureType, sys, item1.lineIds,
                item1.nextConns, item1.transitionConns, item1.attrs⟩ :
                WDStationItem σ)),
            stf.lineItems, stf.count + 1⟩ : CrawlState Unit)
          = eraseState (⟨stf.toParse, stf.parsedStations, stf.parsedLines,
              ainsert stf.stationItems wid
                (⟨item1.item, item1.structureType, sys, item1.lineIds,
                  item1.nextConns, item1.transitionConns, item1.attrs⟩ :
                  WDStationItem σ),
              stf.lineItems, stf.count + 1⟩ : CrawlState σ) := by
        show (⟨stf.toParse, stf.parsedStations, stf.parsedLines,
            ainsert (stf.stationItems.map (fun e => (e.1, eraseItem e.2))) wid
              (eraseItem (⟨item1.item, item1.structureType, sys, item1.lineIds,
                item1.nextConns, item1.transitionConns, item1.attrs⟩ :
                WDStationItem σ)),
            stf.lineItems, stf.count + 1⟩ : CrawlState Unit) = _
        rw [ainsert_map_snd]
        rfl
      rw [hA, addToParse_erase, addToParse_erase]
      rfl
    · rw [if_neg hint, if_neg hint]
      cases h5 : wdGetAnyName item1.item with
      | error e => simp only [h5, pyBind_err, pyMap_err]
      | ok nm =>
        simp only [h5, pyBind_ok, pyMap_ok]
        rfl

theorem crawlLoop_erase {σ : Type} (ctx : ParserCtx σ) (locals : List String) :
    ∀ (fuel : Nat) (st : CrawlState σ),
    crawlLoop (eraseCtx ctx) locals fuel (eraseState st)
      = Except.map eraseState (crawlLoop ctx locals fuel st)
  | 0, st => rfl
  | fuel + 1, st => by
    cases hq : st.toParse with
    | nil =>
      simp only [crawlLoop, eraseState_toParse, hq, pyMap_ok]
    | cons wid rest =>
      simp only [crawlLoop, eraseState_toParse, hq]
      rw [eraseState_setToParse, crawlStep_erase]
      cases hs : crawlStep ctx locals { st with toParse := rest } wid with
      | error e => simp only [hs, pyMap_err, pyBind_err]
      | ok r =>
        simp only [hs, pyMap_ok, pyBind_ok]
        by_cases hb : r.2 = true
        · rw [if_pos hb, if_pos hb]
          rfl
        · rw [if_neg hb, if_neg hb]
          exact crawlLoop_erase ctx locals fuel r.1

theorem eraseStation_id {σ : Type} (s : StationObj σ) :
    (eraseStation s).id_ = s.id_ := rfl

theorem eraseResult_world {σ : Type} (r : ParseResult σ) :
    (eraseResult r).world = eraseWorld r.world := rfl

theorem eraseWorld_arena_length {σ : Type} (w : World σ) :
    (eraseWorld w).stationArena.length = w.stationArena.length := by
  rw [eraseWorld_arena, List.length_map]

theorem eraseWorld_push {σ : Type} (w : World σ) (s : StationObj σ) :
    (⟨(eraseWorld w).map, w.lineArena,
      (eraseWorld w).stationArena ++ [eraseStation s]⟩ : World Unit)
      = eraseWorld { w with stationArena := w.stationArena ++ [s] } := by
  show (⟨w.map, w.lineArena, w.stationArena.map eraseStation ++ [eraseStation s]⟩ :
      World Unit)
    = (⟨w.map, w.lineArena, (w.stationArena ++ [s]).map eraseStation⟩ : World Unit)
  rw [List.map_append]
  rfl

theorem validateSystems_erase {σ : Type} (w : World σ) :
    ∀ d : List (Nat × String),
    validateSystems (eraseWorld w) d = validateSystems w d
  | [] => rfl
  | e :: rest => by
    simp only [validateSystems, eraseWorld_map]
    cases alookup w.map.systems e.2 with
    | none => rfl
    | some s => exact validateSystems_erase w rest

theorem cityStep_erase {σ : Type} (ctx : ParserCtx σ) (m0 : World σ)
    (cityId : Nat) :
    cityStep (eraseCtx ctx) (eraseWorld m0) cityId
      = Except.map eraseWorld (cityStep ctx m0 cityId) := by
  unfold cityStep
  simp only [eraseCtx_fetch]
  by_cases hc : cityId ≠ 0
  · rw [if_pos hc, if_pos hc]
    cases hit : wikidataItemInit (ctx.fetch cityId) cityId with
    | error e => simp only [hit, pyBind_err, pyMap_err]
    | ok it =>
      simp only [hit, pyBind_ok, pyMap_ok, pyPure]
      rfl
  · rw [if_neg hc, if_neg hc]
    rfl

theorem phase2Step_erase {σ : Type} (ctx : ParserCtx σ) (w : World σ)
    (lines : List (Nat × Nat)) (lwid : Nat) (li : WDLineItem) :
    phase2Step (eraseCtx ctx) (eraseWorld w) lines lwid li
      = Except.map (fun r => (eraseWorld r.1, r.2))
          (phase2Step ctx w lines lwid li) := by
  unfold phase2Step
  simp only [eraseCtx_systemsDict, eraseCtx_extractL, getSystem_erase]
  split
  · split
    · rfl
    · rfl
  · split
    · split
      · rfl
      · rfl
    · rfl

theorem phase2_erase {σ : Type} (ctx : ParserCtx σ) :
    ∀ (items : List (Nat × WDLineItem)) (w : World σ)
      (lines : List (Nat × Nat)),
    phase2 (eraseCtx ctx) (eraseWorld w) lines items
      = Except.map (fun r => (eraseWorld r.1, r.2)) (phase2 ctx w lines items)
  | [], w, lines => rfl
  | e :: rest, w, lines => by
    simp only [phase2]
    rw [phase2Step_erase]
    cases hs : phase2Step ctx w lines e.1 e.2 with
    | error er => simp only [hs, pyMap_err, pyBind_err]
    | ok r1 =>
      simp only [hs, pyMap_ok, pyBind_ok]
      exact phase2_erase ctx rest r1.1 r1.2

theorem mkStation_erase {σ : Type} (wid : Nat) (stationId : String)
    (lineIdx : Nat) (it : WDStationItem σ) :
    eraseStation (mkStation wid stationId lineIdx it)
      = mkStation wid stationId lineIdx (eraseItem it) := rfl

theorem phase3Lines_erase {σ : Type} (extractS : String → String → String)
    (locals : List String) (lines : List (Nat × Nat)) (wid : Nat)
    (it : WDStationItem σ) :
    ∀ (lids : List Nat) (w : World σ) (acc : List Nat),
    phase3Lines extractS locals lines wid (eraseItem it) (eraseWorld w) acc lids
      = Except.map (fun r => (eraseWorld r.1, r.2))
          (phase3Lines extractS locals lines wid it w acc lids)
  | [], w, acc => rfl
  | lid :: rest, w, acc => by
    simp only [phase3Lines, eraseWorld_lineArena, eraseItem_item]
    split
    · exact phase3Lines_erase extractS locals lines wid it rest w acc
    · split
      · rfl
      · split
        · rfl
        · rfl
        · rename_i lineIdx lid2 short
          split
          · rw [← mkStation_erase, eraseWorld_push]
            simp only [eraseWorld_arena_length]
            exact phase3Lines_erase extractS locals lines wid it rest _ _
          · exact phase3Lines_erase extractS locals lines wid it rest w acc

theorem intraWirePairs_erase {σ : Type} (w : World σ) (idxs : List Nat) :
    intraWirePairs (eraseWorld w) idxs = eraseWorld (intraWirePairs w idxs) := by
  unfold intraWirePairs
  refine foldl_comm_map eraseWorld _ _ (fun w2 s => ?_) idxs w
  refine foldl_comm_map eraseWorld _ _ (fun w3 o => ?_) idxs w2
  by_cases h : s ≠ o
  · rw [if_pos h, if_pos h]
    rw [worldAddConn_erase, worldAddConn_erase]
  · rw [if_neg h, if_neg h]

theorem phase3_erase {σ : Type} (extractS : String → String → String)
    (locals : List String) (lines : List (Nat × Nat)) :
    ∀ (items : List (Nat × WDStationItem σ)) (w : World σ)
      (stationsBy : List (Nat × List Nat)),
    phase3 extractS locals lines (eraseWorld w) stationsBy
        (items.map (fun e => (e.1, eraseItem e.2)))
      = Except.map (fun r => (eraseWorld r.1, r.2))
          (phase3 extractS locals lines w stationsBy items)
  | [], w, stationsBy => rfl
  | (wid, it) :: rest, w, stationsBy => by
    simp only [List.map_cons, phase3]
    rw [show (eraseItem it).lineIds = it.lineIds from eraseItem_lineIds it]
    rw [phase3Lines_erase]
    cases hs : phase3Lines extractS locals lines wid it w [] it.lineIds with
    | error er => simp only [hs, pyMap_err, pyBind_err]
    | ok r1 =>
      simp only [hs, pyMap_ok, pyBind_ok]
      rw [intraWirePairs_erase]
      exact phase3_erase extractS locals lines rest (intraWirePairs r1.1 r1.2)
        (ainsert stationsBy wid r1.2)

theorem wireNextTgt_erase {σ : Type} (s : Nat) (common : List Nat)
    (w : World σ) (t : Nat) :
    wireNextTgt s common (eraseWorld w) t
      = eraseWorld (wireNextTgt s common w t) := by
  unfold wireNextTgt
  simp only [stationAt_erase, eraseStation_line]
  by_cases h : (stationAt w s).line = (stationAt w t).line ∨ common = []
  · rw [if_pos h, if_pos h]
    exact worldAddConn_erase w s t ConnectionType.NEXT
  · rw [if_neg h, if_neg h]

theorem wireNextPair_erase {σ : Type} (srcs tgts common : List Nat)
    (w : World σ) :
    wireNextPair (eraseWorld w) srcs tgts common
      = eraseWorld (wireNextPair w srcs tgts common) := by
  unfold wireNextPair
  refine foldl_comm_map eraseWorld _ _ (fun w2 s => ?_) srcs w
  refine foldl_comm_map eraseWorld _ _ (fun w3 t => ?_) tgts w2
  exact wireNextTgt_erase s common w3 t

theorem wireNextStep_erase {σ : Type} (items : List (Nat × WDStationItem σ))
    (stationsBy : List (Nat × List Nat)) (a : Nat) (itA : WDStationItem σ)
    (w : World σ) (bc : Nat × Nat) :
    wireNextStep (items.map (fun e => (e.1, eraseItem e.2))) stationsBy a
        (eraseItem itA) (eraseWorld w) bc
      = eraseWorld (wireNextStep items stationsBy a itA w bc) := by
  unfold wireNextStep
  rw [alookup_map_snd]
  cases hB : alookup items bc.1 with
  | none => rfl
  | some itB =>
    show wireNextPair (eraseWorld w) ((alookup stationsBy a).getD [])
        ((alookup stationsBy bc.1).getD []) (commonLines itA itB)
      = eraseWorld (wireNextPair w ((alookup stationsBy a).getD [])
          ((alookup stationsBy bc.1).getD []) (commonLines itA itB))
    exact wireNextPair_erase _ _ _ w

theorem wireNextForItem_erase {σ : Type} (items : List (Nat × WDStationItem σ))
    (stationsBy : List (Nat × List Nat)) (a : Nat) (itA : WDStationItem σ)
    (w : World σ) :
    wireNextForItem (items.map (fun e => (e.1, eraseItem e.2))) stationsBy a
        (eraseItem itA) (eraseWorld w)
      = eraseWorld (wireNextForItem items stationsBy a itA w) := by
  unfold wireNextForItem
  rw [eraseItem_nextConns]
  refine foldl_comm_map eraseWorld _ _ (fun w2 bc => ?_) itA.nextConns w
  exact wireNextStep_erase items stationsBy a itA w2 bc

theorem wireTransForItem_erase {σ : Type} (items : List (Nat × WDStationItem σ))
    (stationsBy : List (Nat × List Nat)) (a : Nat) (itA : WDStationItem σ)
    (w : World σ) :
    wireTransForItem (items.map (fun e => (e.1, eraseItem e.2))) stationsBy a
        (eraseItem itA) (eraseWorld w)
      = eraseWorld (wireTransForItem items stationsBy a itA w) := by
  unfold wireTransForItem
  rw [eraseItem_transitionConns]
  refine foldl_comm_map eraseWorld _ _ (fun w2 b => ?_) itA.transitionConns w
  rw [alookup_map_snd]
  cases hB : alookup items b with
  | none => rfl
  | some itB =>
    show ((alookup stationsBy a).getD []).foldl (fun w s =>
        ((alookup stationsBy b).getD []).foldl (fun w t =>
          worldAddConn w s t ConnectionType.TRANSITION) w) (eraseWorld w2)
      = eraseWorld (((alookup stationsBy a).getD []).foldl (fun w s =>
          ((alookup stationsBy b).getD []).foldl (fun w t =>
            worldAddConn w s t ConnectionType.TRANSITION) w) w2)
    refine foldl_comm_map eraseWorld _ _ (fun w3 s => ?_) _ w2
    refine foldl_comm_map eraseWorld _ _ (fun w4 t => ?_) _ w3
    exact worldAddConn_erase w4 s t ConnectionType.TRANSITION

theorem phase4_erase {σ : Type} (items : List (Nat × WDStationItem σ))
    (stationsBy : List (Nat × List Nat)) (w : World σ) :
    phase4 (items.map (fun e => (e.1, eraseItem e.2))) stationsBy (eraseWorld w)
      = eraseWorld (phase4 items stationsBy w) := by
  unfold phase4
  rw [List.foldl_map]
  refine foldl_comm_map eraseWorld _ _ (fun w2 e => ?_) items w
  show wireTransForItem (items.map (fun e => (e.1, eraseItem e.2))) stationsBy e.1
      (eraseItem e.2)
      (wireNextForItem (items.map (fun e => (e.1, eraseItem e.2))) stationsBy e.1
        (eraseItem e.2) (eraseWorld w2))
    = eraseWorld (wireTransForItem items stationsBy e.1 e.2
        (wireNextForItem items stationsBy e.1 e.2 w2))
  rw [wireNextForItem_erase, wireTransForItem_erase]

theorem phase5Station_erase {σ : Type} (w : World σ) (idx : Nat) :
    phase5Station (eraseWorld w) idx = eraseWorld (phase5Station w idx) := by
  unfold phase5Station
  dsimp only
  have hS : ((eraseWorld w).map.systems.foldl (fun acc e =>
        if (match (stationAt (eraseWorld w) idx).line with
            | some li => decide (li ∈ e.2.lines.map Prod.snd)
            | none => false) = true then some e.1 else acc) none)
      = (w.map.systems.foldl (fun acc e =>
        if (match (stationAt w idx).line with
            | some li => decide (li ∈ e.2.lines.map Prod.snd)
            | none => false) = true then some e.1 else acc) none) := by
    simp only [stationAt_erase, eraseStation_line, eraseWorld_map]
  rw [hS]
  cases hs : (w.map.systems.foldl (fun acc e =>
      if (match (stationAt w idx).line with
          | some li => decide (li ∈ e.2.lines.map Prod.snd)
          | none => false) = true then some e.1 else acc) none) with
  | none => rfl
  | some name =>
    simp only [getSystem_erase, stationAt_erase, eraseStation_id]
    exact setSystem_erase w name _

theorem phase5_erase {σ : Type} (stationsBy : List (Nat × List Nat))
    (w : World σ) (items : List (Nat × WDStationItem σ)) :
    phase5 stationsBy (eraseWorld w) (items.map (fun e => (e.1, eraseItem e.2)))
      = eraseWorld (phase5 stationsBy w items) := by
  unfold phase5
  rw [List.foldl_map]
  refine foldl_comm_map eraseWorld _ _ (fun w2 e => ?_) items w
  show ((alookup stationsBy e.1).getD []).foldl phase5Station (eraseWorld w2)
    = eraseWorld (((alookup stationsBy e.1).getD []).foldl phase5Station w2)
  refine foldl_comm_map eraseWorld _ _ (fun w3 idx => ?_) _ w2
  exact phase5Station_erase w3 idx

theorem parseRun_erase {σ : Type} (ctx : ParserCtx σ) (m0 : World σ)
    (initIds : List Nat) (cityId fuel : Nat) :
    parseRun (eraseCtx ctx) (eraseWorld m0) initIds cityId fuel
      = Except.map eraseResult (parseRun ctx m0 initIds cityId fuel) := by
  unfold parseRun
  simp only [eraseCtx_systemsDict, validateSystems_erase]
  cases hv : validateSystems m0 ctx.systemsDict with
  | error e => simp only [hv, pyBind_err, pyMap_err]
  | ok u =>
  simp only [hv, pyBind_ok]
  rw [cityStep_erase]
  cases hw : cityStep ctx m0 cityId with
  | error e => simp only [hw, pyMap_err, pyBind_err]
  | ok w1 =>
  simp only [hw, pyMap_ok, pyBind_ok, eraseWorld_map]
  rw [show ({ toParse := initIds.foldl setInsert [] } : CrawlState Unit)
      = eraseState ({ toParse := initIds.foldl setInsert [] } : CrawlState σ)
      from rfl]
  rw [crawlLoop_erase]
  cases hcl : crawlLoop ctx w1.map.localLanguages fuel
      { toParse := initIds.foldl setInsert [] } with
  | error e => simp only [hcl, pyMap_err, pyBind_err]
  | ok stF =>
  simp only [hcl, pyMap_ok, pyBind_ok, eraseState_lineItems, eraseState_stationItems]
  rw [phase2_erase]
  cases hp2 : phase2 ctx w1 [] stF.lineItems with
  | error e => simp only [hp2, pyMap_err, pyBind_err]
  | ok r2 =>
  simp only [hp2, pyMap_ok, pyBind_ok, eraseCtx_extractS]
  rw [phase3_erase]
  cases hp3 : phase3 ctx.extractS w1.map.localLanguages r2.2 r2.1 []
      stF.stationItems with
  | error e => simp only [hp3, pyMap_err, pyBind_err]
  | ok r3 =>
  simp only [hp3, pyMap_ok, pyBind_ok]
  rw [phase4_erase, phase5_erase]
  rfl

theorem graphOf_erase {σ : Type} (r : ParseResult σ) :
    graphOf (eraseResult r) = graphOf r := by
  unfold graphOf
  simp only [eraseResult_world, eraseWorld_map, eraseWorld_arena, stationAt_erase,
    eraseStation_conns, List.get?_map, Option.map_map, Function.comp_def,
    eraseStation_id]

/-- Claim C1.  Crawl determinism/idempotence: two runs of
WikidataCityParser.parse on fresh parsers and maps built from the same
inputs — the same systems-of-interest dict, seed ids, city id, network
update list and a fetch collaborator returning the same raw structure for
every id — produce graphs with identical station id sets in every System's
station dict and identical edge sets (connections compared by target
station id and connection type).  The two runs may differ arbitrarily in
their abstract attribute computations (the clock-dependent station status),
which is the only run-to-run variation of the embedded parse; sharing the
rest of the inputs is expressed by equal erasures of the contexts and
initial worlds. -/
theorem C1_crawl_idempotence {σ₁ σ₂ : Type} (ctx₁ : ParserCtx σ₁)
    (ctx₂ : ParserCtx σ₂) (m0₁ : World σ₁) (m0₂ : World σ₂)
    (initIds : List Nat) (cityId fuel : Nat)
    (r₁ : ParseResult σ₁) (r₂ : ParseResult σ₂)
    (hctx : eraseCtx ctx₁ = eraseCtx ctx₂)
    (hm0 : eraseWorld m0₁ = eraseWorld m0₂)
    (h₁ : parseRun ctx₁ m0₁ initIds cityId fuel = .ok r₁)
    (h₂ : parseRun ctx₂ m0₂ initIds cityId fuel = .ok r₂) :
    graphOf r₁ = graphOf r₂ := by
  have e1 : parseRun (eraseCtx ctx₁) (eraseWorld m0₁) initIds cityId fuel
      = .ok (eraseResult r₁) := by
    rw [parseRun_erase, h₁]
    rfl
  have e2 : parseRun (eraseCtx ctx₂) (eraseWorld m0₂) initIds cityId fuel
      = .ok (eraseResult r₂) := by
    rw [parseRun_erase, h₂]
    rfl
  rw [hctx, hm0, e2] at e1
  have hre : eraseResult r₁ = eraseResult r₂ := (Except.ok.inj e1).symm
  calc graphOf r₁ = graphOf (eraseResult r₁) := (graphOf_erase r₁).symm
    _ = graphOf (eraseResult r₂) := by rw [hre]
    _ = graphOf r₂ := graphOf_erase r₂

/-- The raw entity of the C1 witness station: a label and nothing else. -/
def c1Entity : RawEntity :=
  { labels := some [("en", "Solo")] }

/-- A fetch collaborator serving only item 2. -/
def c1Fetch : Nat → RawStructure := fun n =>
  if n = 2 then { entities := some [("Q2", c1Entity)] }
  else { entities := none }

/-- The first run's inputs: trivial attributes. -/
def c1CtxA : ParserCtx Unit :=
  { regexM := fun _ _ => false
    fetch := c1Fetch
    mkAttrs := fun _ => .ok ()
    extractS := fun n _ => n
    extractL := fun n _ => n
    systemsDict := [(1, "metro")]
    networkUpdate := []
    limit := none }

/-- The second run's inputs: same collaborators, but a different attribute
computation standing for a later clock reading. -/
def c1CtxB : ParserCtx Bool :=
  { regexM := fun _ _ => false
    fetch := c1Fetch
    mkAttrs := fun _ => .ok true
    extractS := fun n _ => n
    extractL := fun n _ => n
    systemsDict := [(1, "metro")]
    networkUpdate := []
    limit := none }

/-- The first run's initial map: one empty system named metro. -/
def c1WorldA : World Unit :=
  { map := { systems := [("metro", {})] } }

/-- The second run's initial map: the same empty system. -/
def c1WorldB : World Bool :=
  { map := { systems := [("metro", {})] } }

/-- What the first C1 witness run returns. -/
def c1ResA : ParseResult Unit :=
  { world := c1WorldA
    crawl := { toParse := []
               parsedStations := [2]
               parsedLines := []
               stationItems := []
               lineItems := []
               count := 1 }
    lines := []
    stationsBy := [] }

/-- What the second C1 witness run returns. -/
def c1ResB : ParseResult Bool :=
  { world := c1WorldB
    crawl := { toParse := []
               parsedStations := [2]
               parsedLines := []
               stationItems := []
               lineItems := []
               count := 1 }
    lines := []
    stationsBy := [] }

theorem C1_crawl_idempotence_witness :
    eraseCtx c1CtxA = eraseCtx c1CtxB
    ∧ eraseWorld c1WorldA = eraseWorld c1WorldB
    ∧ graphOf c1ResA = graphOf c1ResB :=
  ⟨rfl, rfl,
    C1_crawl_idempotence c1CtxA c1CtxB c1WorldA c1WorldB [2] 0 3 c1ResA c1ResB
      rfl rfl (by decide) (by decide)⟩

end MetroSpec
